import Mathlib

/-!
# Verification of `bingo_elastic/model/record.py`

A shallow embedding of the record-construction module of the Bingo
Elastic Python client, together with theorems settling the specification
claims about it.

Modelling conventions:
* The Indigo toolkit is an external collaborator.  A query-molecule atom
  is modelled by the data the sanitizer inspects (`isPseudoatom`,
  `isRSite`, `symbol`); a molecule is its atom list, atoms identified by
  their (stable) original index.  `removeConstraints` mutates constraint
  data the sanitizer never reads back, so it has no effect on this model.
* Backend calls made during record population are modelled by a
  `PopBackend` structure whose fields give each call's result:
  `Except String α` with `.error msg` standing for an `IndigoException`
  carrying `msg` (the Indigo API signals failure only through
  `IndigoException`; `ValueError` arises separately, from `int()` parsing).
* Python exceptions are modelled with `Except PyErr`; an instance's
  `__dict__` is an insertion-ordered association list `Inst`.
* Custom error handlers are modelled by an environment
  `csem : Nat → PyErr → Option PyErr`: handler `c` invoked on error `e`
  either returns normally (`none`) or raises `some e'`.  Handlers are
  modelled as not mutating the record (per the spec they log, count, or
  re-raise).
-/

/-- An atom of an Indigo query molecule, restricted to the data read by
`sanitize_indigo_query_molecule`. -/
structure QAtom where
  isPseudoatom : Bool
  isRSite : Bool
  symbol : String
  deriving DecidableEq, Repr

/-- The fixed ambiguous-symbol set of `sanitize_indigo_query_molecule`
(source line 25). -/
def ambiguousSymbols : List String :=
  ["A", "Q", "X", "M", "AH", "QH", "XH", "MH", "NOT", "R", "*"]

/-- Decision taken for one atom by the loop body of
`sanitize_indigo_query_molecule` (source lines 18–28): the final value of
its `to_remove` flag. -/
def atomFlagged (a : QAtom) : Bool :=
  if a.isPseudoatom || a.isRSite then
    true
  else
    (decide (a.symbol ∈ ambiguousSymbols))
      || (decide ('[' ∈ a.symbol.toList) && decide (']' ∈ a.symbol.toList))

/-- Model of `IndigoObject.removeAtoms` on a molecule whose atoms carry
their stable original indices: the atoms with the given indices are
removed. -/
def removeAtomsByIdx (mol : List (Nat × QAtom)) (idxs : List Nat) :
    List (Nat × QAtom) :=
  mol.filter (fun p => decide (p.1 ∉ idxs))

/-- The `for atom in query_mol.iterateAtoms()` loop of
`sanitize_indigo_query_molecule` (source lines 16–32).  The first argument
is the current state of the molecule, the second the remaining iteration.
Each iteration re-initialises `atoms_to_remove`, flags at most the current
atom, and then calls `removeAtoms` with the collected indices — so
`removeAtoms` is invoked once per iterated atom, during the iteration.
The returned trace records the index list passed to every `removeAtoms`
call, in order. -/
def sanitizeMolLoop :
    List (Nat × QAtom) → List (Nat × QAtom) →
    List (Nat × QAtom) × List (List Nat)
  | mol, [] => (mol, [])
  | mol, (i, a) :: rest =>
      let atomsToRemoveIdx : List Nat := if atomFlagged a then [i] else []
      let mol' := removeAtomsByIdx mol atomsToRemoveIdx
      let r := sanitizeMolLoop mol' rest
      (r.1, atomsToRemoveIdx :: r.2)

/-- Shallow embedding of `sanitize_indigo_query_molecule` (source lines
11–33).  Input: the molecule's atoms.  Output: the mutated molecule
(returned in place by the Python function) together with the trace of
index lists passed to `removeAtoms`.  Iteration is modelled over the
molecule's atoms as they stand at loop entry; since each `removeAtoms`
call removes at most the atom just visited, the atoms still to be visited
are unaffected by the interleaved removals. -/
def sanitize_indigo_query_molecule (mol : List QAtom) :
    List QAtom × List (List Nat) :=
  let indexed := mol.enum
  let r := sanitizeMolLoop indexed indexed
  (r.1.map (·.2), r.2)

/-- A query reaction, as the sanitizer sees it: its reactant and product
molecules. -/
structure QReaction where
  reactants : List (List QAtom)
  products : List (List QAtom)
  deriving DecidableEq, Repr

/-- Python exceptions relevant to this module. -/
inductive PyErr where
  | indigoErr (msg : String)
  | valueErr (msg : String)
  | typeErr (msg : String)
  | keyErr (msg : String)
  | attrErr (msg : String)
  deriving DecidableEq, Repr

/-- One side of the reaction-cleaning loops of
`sanitize_indigo_query_reaction` (source lines 41–50): each molecule is
cloned, cleaned with `sanitize_indigo_query_molecule`, and added to the
new reaction only if the cleaned clone has at least one atom. -/
def addCleaned (mols : List (List QAtom)) : List (List QAtom) :=
  mols.foldr
    (fun mol acc =>
      let cloned := (sanitize_indigo_query_molecule mol).1
      if 0 < cloned.length then cloned :: acc else acc)
    []

/-- The error message of source line 52. -/
def sanitizeReactionErrMsg : String :=
  "At least one reactant or product must contains a non-query atom in the reaction template."

/-- Shallow embedding of `sanitize_indigo_query_reaction` (source lines
35–53).  The final `indigo.loadReaction(cloned.rxnfile())` round trip
through reaction-text is a backend operation; it is modelled by the
parameter `load`, applied to the cleaned reaction's content. -/
def sanitize_indigo_query_reaction {α : Type} (load : QReaction → α)
    (rxn : QReaction) : Except PyErr α :=
  let cloned : QReaction := ⟨addCleaned rxn.reactants, addCleaned rxn.products⟩
  if cloned.products.length = 0 ∧ cloned.reactants.length = 0 then
    .error (.valueErr sanitizeReactionErrMsg)
  else
    .ok (load cloned)

/-- The `MOL_TYPES` list (source line 8). -/
def MOL_TYPES : List String :=
  ["#02: <molecule>", "#03: <query reaction>", "#12: <RDFMolecule>"]

/-- The `REAC_TYPES` list (source line 9). -/
def REAC_TYPES : List String :=
  ["#04: <reaction>", "#05: <query reaction>"]

/-- Model of Python's `sorted(set(l))` on integer hashes: the ascending
list of the distinct values of `l`. -/
def pySortedSet (l : List Int) : List Int :=
  l.dedup.insertionSort (· ≤ ·)

/-- The results of the backend calls `WithIndigoObject.__set__` makes on
one structure object, in the order the pipeline issues them.  `.error m`
is an `IndigoException` with message `m`.  `componentHashesRes` merges
`iterateComponents` with each `component.clone().hash()` (a failure in
any of them aborts the comprehension of source lines 125–128). -/
structure PopBackend where
  cloneRes : Except String Unit
  aromatizeRes : Except String Unit
  simFpRes : Except String String
  subFpRes : Except String String
  serializeRes : Except String (List Nat)
  nameRes : Except String String
  internalTypeRes : Except String String
  componentHashesRes : Except String (List Int)
  wholeHashRes : Except String Int
  badValenceRes : Except String Bool
  deriving Repr

/-- An `IndigoObject` as this module consumes it: the behaviour of the
population backend calls on it, plus — when it is a query reaction — the
reaction content the sanitizer reads. -/
structure IndigoObjModel where
  pop : PopBackend
  qrxn : Option QReaction
  deriving Repr

/-- An error handler stored in `IndigoRecord.error_handler`: either the
library's `skip_errors` function or a caller-supplied callback,
identified by a tag interpreted by the handler environment. -/
inductive ErrHandler where
  | skipErrors
  | custom (c : Nat)
  deriving DecidableEq, Repr

/-- A Python value as stored in a record's `__dict__` or passed as a
keyword argument. -/
inductive PyVal where
  | vNone
  | vBool (b : Bool)
  | vInt (n : Int)
  | vStr (s : String)
  | vIntList (l : List Int)
  | vHandler (h : ErrHandler)
  | vObj (o : IndigoObjModel)
  | vDict (entries : List (String × PyVal))
  deriving Repr

/-- A record instance's `__dict__`: an insertion-ordered association
list, first occurrence of a key is its binding. -/
abbrev Inst := List (String × PyVal)

/-- Behaviour of caller-supplied handlers: handler `c` applied to error
`e` either returns normally (`none`) or raises `some e'`.  Handlers are
modelled as not mutating the record. -/
abbrev Csem := Nat → PyErr → Option PyErr

/-- A `check_error` report recorded by the population pipeline: the step
that reported and the error it reported. -/
abbrev Event := String × PyErr

/-- Result of a (possibly raising) mutation of an instance, together
with the `check_error` reports it produced. -/
abbrev StepOut := Except PyErr Inst × List Event

/-- One population step as a state transformer. -/
abbrev StepFun := Inst → StepOut

/-- First binding of `k` in the dictionary. -/
def lookupPy : Inst → String → Option PyVal
  | [], _ => none
  | (k', v) :: rest, k => if k' = k then some v else lookupPy rest k

/-- Python dictionary assignment `d[k] = v` / plain-attribute `setattr`:
updates the first binding of `k` in place, or appends a new one. -/
def rawSet : Inst → String → PyVal → Inst
  | [], k, v => [(k, v)]
  | (k', v') :: rest, k, v =>
      if k' = k then (k', v) :: rest else (k', v') :: rawSet rest k v

/-- Python `d.get(k, dflt)`. -/
def pyDictGet (entries : Inst) (k : String) (dflt : PyVal) : PyVal :=
  match lookupPy entries k with
  | some v => v
  | none => dflt

/-- Python truthiness of the modelled values. -/
def pyTruthy : PyVal → Bool
  | .vNone => false
  | .vBool b => b
  | .vInt n => n ≠ 0
  | .vStr s => s ≠ ""
  | .vIntList l => l ≠ []
  | .vHandler _ => true
  | .vObj _ => true
  | .vDict entries => !entries.isEmpty

/-- Shallow embedding of `check_error` (source lines 62–66): if
`instance.error_handler` is truthy it is called (the `skip_errors`
handler does nothing, a custom handler behaves as `csem` says),
otherwise the error is re-raised. -/
def check_error (csem : Csem) (inst : Inst) (e : PyErr) : Except PyErr Unit :=
  match lookupPy inst "error_handler" with
  | some (.vHandler .skipErrors) => .ok ()
  | some (.vHandler (.custom c)) =>
      match csem c e with
      | none => .ok ()
      | some e' => .error e'
  | some v => if pyTruthy v then .error (.typeErr "object is not callable") else .error e
  | none => .error e

/-- A guarded step's `except` clause: record the report, run
`check_error`, and either continue with the instance as it stands or
re-raise. -/
def reportStep (csem : Csem) (inst : Inst) (tag : String) (e : PyErr) : StepOut :=
  match check_error csem inst e with
  | .ok _ => (.ok inst, [(tag, e)])
  | .error e' => (.error e', [(tag, e)])

/-- Sequencing of two steps: the second runs only if the first did not
raise; reports accumulate. -/
def seqStep (f g : StepFun) : StepFun := fun inst =>
  match f inst with
  | (.ok mid, ev) =>
      let r := g mid
      (r.1, ev ++ r.2)
  | (.error e, ev) => (.error e, ev)

/-- Split a character list on a separator; an empty input yields one
empty field, like Python's `"".split(" ") == [""]`. -/
def splitCharList (sep : Char) : List Char → List (List Char)
  | [] => [[]]
  | c :: rest =>
      let r := splitCharList sep rest
      if c = sep then [] :: r
      else
        match r with
        | [] => [[c]]
        | t :: ts => (c :: t) :: ts

/-- Model of Python's `s.split(" ")` (single-character separator). -/
def pySplitSpace (s : String) : List String :=
  (splitCharList ' ' s.toList).map (fun cs => String.mk cs)

/-- Accumulate decimal digits; any non-digit character is a parse
failure. -/
def parseDigitsAux : List Char → Nat → Option Nat
  | [], acc => some acc
  | c :: rest, acc =>
      if c.isDigit then parseDigitsAux rest (acc * 10 + (c.toNat - 48))
      else none

/-- A non-empty all-digit character list as a number. -/
def parseDigits : List Char → Option Nat
  | [] => none
  | ds => parseDigitsAux ds 0

/-- Model of Python's `int(s)` on a token: an optional sign followed by
decimal digits; anything else raises `ValueError` (`none`). -/
def pyParseInt (s : String) : Option Int :=
  match s.toList with
  | '-' :: ds => (parseDigits ds).map (fun n => -(n : Int))
  | '+' :: ds => (parseDigits ds).map (fun n => (n : Int))
  | ds => (parseDigits ds).map (fun n => (n : Int))

/-- Model of the Python list comprehension
`[int(feature) for feature in tokens]`: all-or-nothing left-to-right
`int()` parsing, `none` standing for the `ValueError` of the first bad
token. -/
def pyParseIntList : List String → Option (List Int)
  | [] => some []
  | t :: rest =>
      match pyParseInt t with
      | some n => (pyParseIntList rest).map (n :: ·)
      | none => none

/-- One fingerprint iteration of `WithIndigoObject.__set__` (source
lines 94–107): the field and its length are first defaulted to `[]`/`0`,
then the fingerprint bit-list string is computed and parsed, and on
success both are overwritten; `ValueError` and `IndigoException` are both
routed to `check_error`. -/
def fingerprintStep (csem : Csem) (fpRes : Except String String)
    (kind : String) : StepFun := fun inst =>
  let inst0 :=
    rawSet (rawSet inst (kind ++ "_fingerprint") (.vIntList []))
      (kind ++ "_fingerprint_len") (.vInt 0)
  match fpRes with
  | .error m => reportStep csem inst0 ("fingerprint-" ++ kind) (.indigoErr m)
  | .ok s =>
      if s = "" then (.ok inst0, [])
      else
        match pyParseIntList (pySplitSpace s) with
        | some fp =>
            (.ok (rawSet (rawSet inst0 (kind ++ "_fingerprint") (.vIntList fp))
                (kind ++ "_fingerprint_len") (.vInt (fp.length : Int))), [])
        | none =>
            reportStep csem inst0 ("fingerprint-" ++ kind)
              (.valueErr "invalid literal for int() with base 10")

/-- The canonical-serialization step (source lines 109–114). -/
def cmfStep (csem : Csem) (serRes : Except String (List Nat)) : StepFun :=
  fun inst =>
    match serRes with
    | .ok bytes =>
        (.ok (rawSet inst "cmf" (.vStr (String.intercalate " " (bytes.map toString)))), [])
    | .error m => reportStep csem (rawSet inst "cmf" (.vStr "")) "cmf" (.indigoErr m)

/-- The name step (source lines 116–120). -/
def nameStep (csem : Csem) (nameRes : Except String String) : StepFun :=
  fun inst =>
    match nameRes with
    | .ok s => (.ok (rawSet inst "name" (.vStr s)), [])
    | .error m => reportStep csem (rawSet inst "name" (.vStr "")) "name" (.indigoErr m)

/-- The structural-hash step (source lines 122–133): molecule-like types
get the sorted deduplicated per-component hashes, reaction-like types the
singleton whole-object hash, any other internal type is skipped. -/
def hashStep (csem : Csem) (tyRes : Except String String)
    (compRes : Except String (List Int)) (wholeRes : Except String Int) :
    StepFun := fun inst =>
  match tyRes with
  | .error m => reportStep csem inst "hash" (.indigoErr m)
  | .ok t =>
      if t ∈ MOL_TYPES then
        match compRes with
        | .ok hs => (.ok (rawSet inst "hash" (.vIntList (pySortedSet hs))), [])
        | .error m => reportStep csem inst "hash" (.indigoErr m)
      else if t ∈ REAC_TYPES then
        match wholeRes with
        | .ok h => (.ok (rawSet inst "hash" (.vIntList [h])), [])
        | .error m => reportStep csem inst "hash" (.indigoErr m)
      else (.ok inst, [])

/-- The valence-check step (source lines 135–141). -/
def valenceStep (csem : Csem) (valRes : Except String Bool) : StepFun :=
  fun inst =>
    match valRes with
    | .ok true => (.ok (rawSet inst "has_error" (.vInt 1)), [])
    | .ok false => (.ok (rawSet inst "has_error" (.vInt 0)), [])
    | .error m => reportStep csem inst "valence" (.indigoErr m)

/-- The guarded steps of `WithIndigoObject.__set__` that follow the
(unguarded) aromatization, in source order. -/
def afterAromatize (csem : Csem) (B : PopBackend) : StepFun :=
  seqStep (fingerprintStep csem B.simFpRes "sim")
    (seqStep (fingerprintStep csem B.subFpRes "sub")
      (seqStep (cmfStep csem B.serializeRes)
        (seqStep (nameStep csem B.nameRes)
          (seqStep (hashStep csem B.internalTypeRes B.componentHashesRes B.wholeHashRes)
            (valenceStep csem B.badValenceRes)))))

/-- Shallow embedding of `WithIndigoObject.__set__` (source lines
77–141): clone the structure (a failure is reported and, if the handler
swallows it, population returns with nothing populated); aromatize the
clone with no guard at all (source line 88), so an aromatization failure
always propagates; then run the guarded extraction steps. -/
def WithIndigoObject.set (csem : Csem) (B : PopBackend) (inst : Inst) : StepOut :=
  match B.cloneRes with
  | .error m => reportStep csem inst "clone" (.indigoErr m)
  | .ok _ =>
      match B.aromatizeRes with
      | .error m => (.error (.indigoErr m), [])
      | .ok _ => afterAromatize csem B inst

mutual

/-- Python `setattr(instance, key, v)` under `IndigoRecord`'s class
attributes: `indigo_object` and `elastic_response` are data descriptors
whose `__set__` consumes the value without storing the key; every other
key is a plain instance-dictionary write.  Assigning a value of the
wrong shape to a descriptor raises (the descriptor immediately calls a
method the value does not have). -/
def pySetattr (csem : Csem) (inst : Inst) (key : String) (v : PyVal) : StepOut :=
  if key = "indigo_object" then
    match v with
    | .vObj o => WithIndigoObject.set csem o.pop inst
    | _ => (.error (.attrErr "object has no attribute clone"), [])
  else if key = "elastic_response" then
    match v with
    | .vDict entries =>
        match elasticFromSource csem inst entries with
        | (.ok i2, ev) => (.ok (rawSet i2 "_sort" (pyDictGet entries "sort" .vNone)), ev)
        | r => r
    | _ => (.error (.typeErr "object is not subscriptable"), [])
  else (.ok (rawSet inst key v), [])

/-- The `value["_source"]` lookup of `WithElasticResponse.__set__`
(source line 71): a missing key raises `KeyError`; a `_source` that is
not a mapping makes the subsequent `.items()` call raise. -/
def elasticFromSource (csem : Csem) (inst : Inst) :
    List (String × PyVal) → StepOut
  | [] => (.error (.keyErr "_source"), [])
  | (k, v) :: rest =>
      if k = "_source" then
        match v with
        | .vDict src => elasticSrcLoop csem inst src
        | _ => (.error (.attrErr "object has no attribute items"), [])
      else elasticFromSource csem inst rest

/-- The `for arg, val in el_src.items(): setattr(instance, arg, val)`
loop of `WithElasticResponse.__set__` (source lines 72–73). -/
def elasticSrcLoop (csem : Csem) (inst : Inst) :
    List (String × PyVal) → StepOut
  | [] => (.ok inst, [])
  | (k, v) :: rest =>
      match pySetattr csem inst k v with
      | (.ok i2, ev) =>
          let r := elasticSrcLoop csem i2 rest
          (r.1, ev ++ r.2)
      | r => r

end

/-- The `for arg, val in kwargs.items(): setattr(self, arg, val)` loop
of `IndigoRecord.__init__` (source lines 196–197). -/
def initLoop (csem : Csem) (inst : Inst) : List (String × PyVal) → StepOut
  | [] => (.ok inst, [])
  | (k, v) :: rest =>
      match pySetattr csem inst k v with
      | (.ok i2, ev) =>
          let r := initLoop csem i2 rest
          (r.1, ev ++ r.2)
      | r => r

/-- Shallow embedding of `IndigoRecord.__init__` (source lines 170–197):
install `skip_errors` as the handler when the `skip_errors` keyword is
truthy, otherwise the `error_handler` keyword (default `None`); generate
`record_id` (the opaque token is the parameter `uuidHex`); then assign
every keyword through `setattr`. -/
def IndigoRecord.init (csem : Csem) (uuidHex : String)
    (kwargs : List (String × PyVal)) : StepOut :=
  let h0 : Inst :=
    if pyTruthy (pyDictGet kwargs "skip_errors" (.vBool false)) then
      rawSet [] "error_handler" (.vHandler .skipErrors)
    else
      rawSet [] "error_handler" (pyDictGet kwargs "error_handler" .vNone)
  let h1 := rawSet h0 "record_id" (.vStr uuidHex)
  initLoop csem h1 kwargs

/-- Shallow embedding of `IndigoRecord.as_dict` (source lines 199–206):
the instance dictionary without the `error_handler` and `skip_errors`
keys. -/
def IndigoRecord.as_dict (inst : Inst) : Inst :=
  inst.filter (fun p => decide (p.1 ∉ ["error_handler", "skip_errors"]))

/-- Shallow embedding of `IndigoRecord.as_indigo_object` (source lines
208–211): when `self.cmf` is truthy it is split on spaces, parsed with
`int`, and handed to the session's `deserialize` (the parameter);
otherwise `ValueError("Unexpected cmf value")` is raised.  The class
default of the never-populated `cmf` attribute is `None` (source line
154). -/
def IndigoRecord.as_indigo_object {α : Type} (deserialize : List Int → α)
    (inst : Inst) : Except PyErr α :=
  let cmfVal := pyDictGet inst "cmf" .vNone
  if pyTruthy cmfVal then
    match cmfVal with
    | .vStr s =>
        match pyParseIntList (pySplitSpace s) with
        | some ints => .ok (deserialize ints)
        | none => .error (.valueErr "invalid literal for int() with base 10")
    | _ => .error (.attrErr "object has no attribute split")
  else .error (.valueErr "Unexpected cmf value")

/-- Shallow embedding of `IndigoRecordReactionTemplate.__init__` (source
lines 221–234): when an `indigo_object` keyword is present, the query
reaction it holds is sanitized before `IndigoRecord.__init__` runs (so
before any error handler is installed), the keyword is replaced by the
loaded cleaned reaction, and the original reaction text is added under
`original_qrxn`.  `load` models `session.loadReaction ∘ rxnfile` on the
cleaned reaction, `rxnfileOf` models `rxnfile()` on the original. -/
def IndigoRecordReactionTemplate.init (csem : Csem) (uuidHex : String)
    (load : QReaction → IndigoObjModel) (rxnfileOf : QReaction → String)
    (kwargs : List (String × PyVal)) : StepOut :=
  match lookupPy kwargs "indigo_object" with
  | none => IndigoRecord.init csem uuidHex kwargs
  | some (.vObj o) =>
      match o.qrxn with
      | some rxn =>
          match sanitize_indigo_query_reaction load rxn with
          | .error e => (.error e, [])
          | .ok cleanedObj =>
              let kwargs2 :=
                rawSet (rawSet kwargs "indigo_object" (.vObj cleanedObj))
                  "original_qrxn" (.vStr (rxnfileOf rxn))
              IndigoRecord.init csem uuidHex kwargs2
      | none => (.error (.typeErr "can not iterate reactants"), [])
  | some _ => (.error (.attrErr "object has no attribute session"), [])

/-- The indices the loop of `sanitize_indigo_query_molecule` flags for
removal over a given iteration suffix. -/
def flaggedIdxs (rest : List (Nat × QAtom)) : List Nat :=
  (rest.filter (fun p => atomFlagged p.2)).map Prod.fst

/-- The instance-dictionary keys `WithIndigoObject.__set__` can write. -/
def popFieldKeys : List String :=
  ["sim_fingerprint", "sim_fingerprint_len", "sub_fingerprint",
   "sub_fingerprint_len", "cmf", "name", "hash", "has_error"]

/-- The final values of one fingerprint field and its length counter, as
a function of that fingerprint's backend result alone: the parsed set-bit
list on success, the `[]`/`0` defaults on an empty bit-list string, a
backend error, or a parse error. -/
def fpFields (r : Except String String) : List Int × Int :=
  match r with
  | .error _ => ([], 0)
  | .ok s =>
      if s = "" then ([], 0)
      else
        match pyParseIntList (pySplitSpace s) with
        | some fp => (fp, (fp.length : Int))
        | none => ([], 0)

/-- The write performed by the fingerprint step for one kind. -/
def fpWrites (kind : String) (r : Except String String) : List (String × PyVal) :=
  [(kind ++ "_fingerprint", .vIntList (fpFields r).1),
   (kind ++ "_fingerprint_len", .vInt (fpFields r).2)]

/-- The write performed by the canonical-serialization step. -/
def cmfWrites (r : Except String (List Nat)) : List (String × PyVal) :=
  [("cmf", .vStr (match r with
    | .ok bytes => String.intercalate " " (bytes.map toString)
    | .error _ => ""))]

/-- The write performed by the name step. -/
def nameWrites (r : Except String String) : List (String × PyVal) :=
  [("name", .vStr (match r with | .ok s => s | .error _ => ""))]

/-- The write performed by the structural-hash step: nothing on a failed
or unknown internal type. -/
def hashWrites (tyRes : Except String String)
    (compRes : Except String (List Int)) (wholeRes : Except String Int) :
    List (String × PyVal) :=
  match tyRes with
  | .error _ => []
  | .ok t =>
      if t ∈ MOL_TYPES then
        match compRes with
        | .ok hs => [("hash", .vIntList (pySortedSet hs))]
        | .error _ => []
      else if t ∈ REAC_TYPES then
        match wholeRes with
        | .ok h => [("hash", .vIntList [h])]
        | .error _ => []
      else []

/-- The write performed by the valence step: nothing on failure. -/
def valWrites (r : Except String Bool) : List (String × PyVal) :=
  match r with
  | .ok b => [("has_error", .vInt (if b then 1 else 0))]
  | .error _ => []

/-- All writes of a completed population, each field a function of its
own step's backend results only. -/
def popWrites (B : PopBackend) : List (String × PyVal) :=
  fpWrites "sim" B.simFpRes ++ fpWrites "sub" B.subFpRes ++
    cmfWrites B.serializeRes ++ nameWrites B.nameRes ++
    hashWrites B.internalTypeRes B.componentHashesRes B.wholeHashRes ++
    valWrites B.badValenceRes

/-- Lookup through a write list first, falling back to the instance:
the dictionary one obtains by applying the (distinct-key) writes. -/
def overrideLookup (ws : List (String × PyVal)) (inst : Inst) (k : String) :
    Option PyVal :=
  match lookupPy ws k with
  | some v => some v
  | none => lookupPy inst k

/-- A step only ever writes keys in `K`. -/
def WritesOnly (f : StepFun) (K : List String) : Prop :=
  ∀ inst out, (f inst).1 = .ok out → ∀ k, k ∉ K → lookupPy out k = lookupPy inst k

/-- Every `check_error` report of a step carries a tag in `tags`. -/
def EventTags (f : StepFun) (tags : List String) : Prop :=
  ∀ inst ev, ev ∈ (f inst).2 → ev.1 ∈ tags

/-- The installed error policy swallows every report: `check_error`
returns normally on the instance as it stands (true for the `skip_errors`
handler, and for a custom handler that never re-raises). -/
def Swallows (csem : Csem) (inst : Inst) : Prop :=
  ∀ e, check_error csem inst e = .ok ()

/-- Under a swallowing policy, a step completes without raising and its
effect on the dictionary is exactly the write list `W` applied over the
incoming instance. -/
def SkipChar (csem : Csem) (f : StepFun) (W : List (String × PyVal)) : Prop :=
  ∀ inst, Swallows csem inst →
    ∃ out, (f inst).1 = .ok out ∧ ∀ k, lookupPy out k = overrideLookup W inst k

theorem lookupPy_rawSet (inst : Inst) (k k' : String) (v : PyVal) :
    lookupPy (rawSet inst k v) k' = if k = k' then some v else lookupPy inst k' := by
  induction inst with
  | nil =>
      by_cases h : k = k' <;> simp [rawSet, lookupPy, h]
  | cons p rest ih =>
      obtain ⟨k0, v0⟩ := p
      by_cases h0 : k0 = k
      · subst h0
        by_cases h : k0 = k' <;> simp [rawSet, lookupPy, h]
      · by_cases h : k0 = k'
        · subst h
          have : ¬k = k0 := fun hh => h0 hh.symm
          simp [rawSet, lookupPy, h0, this]
        · simp [rawSet, lookupPy, h0, h, ih]

theorem seqStep_fst_ok (f g : StepFun) (inst : Inst) (out : Inst) :
    (seqStep f g inst).1 = .ok out ↔
      ∃ mid, (f inst).1 = .ok mid ∧ (g mid).1 = .ok out := by
  unfold seqStep
  rcases h : f inst with ⟨r, ev⟩
  cases r with
  | ok mid => simp [h]
  | error e => simp [h]

theorem seqStep_ev_mem (f g : StepFun) (inst : Inst) (ev : Event) :
    ev ∈ (seqStep f g inst).2 →
      ev ∈ (f inst).2 ∨ ∃ mid, (f inst).1 = .ok mid ∧ ev ∈ (g mid).2 := by
  unfold seqStep
  rcases h : f inst with ⟨r, evs⟩
  cases r with
  | ok mid =>
      intro hm
      simp only [List.mem_append] at hm
      rcases hm with hm | hm
      · exact Or.inl (by simp [h, hm])
      · exact Or.inr ⟨mid, by simp [h], hm⟩
  | error e =>
      intro hm
      exact Or.inl (by simp [h, hm])

theorem writesOnly_seq {f g : StepFun} {K K' : List String}
    (hf : WritesOnly f K) (hg : WritesOnly g K') :
    WritesOnly (seqStep f g) (K ++ K') := by
  intro inst out hok k hk
  rw [List.mem_append] at hk
  push_neg at hk
  obtain ⟨mid, hfm, hgm⟩ := (seqStep_fst_ok f g inst out).1 hok
  calc lookupPy out k = lookupPy mid k := hg mid out hgm k hk.2
    _ = lookupPy inst k := hf inst mid hfm k hk.1

theorem eventTags_seq {f g : StepFun} {T T' : List String}
    (hf : EventTags f T) (hg : EventTags g T') :
    EventTags (seqStep f g) (T ++ T') := by
  intro inst ev hm
  rcases seqStep_ev_mem f g inst ev hm with hm' | ⟨mid, _, hm'⟩
  · exact List.mem_append.2 (Or.inl (hf inst ev hm'))
  · exact List.mem_append.2 (Or.inr (hg mid ev hm'))

theorem sanitizeMolLoop_trace_length (rest mol : List (Nat × QAtom)) :
    (sanitizeMolLoop mol rest).2.length = rest.length := by
  induction rest generalizing mol with
  | nil => simp [sanitizeMolLoop]
  | cons p rest ih =>
      obtain ⟨i, a⟩ := p
      simp [sanitizeMolLoop, ih]

theorem sanitizeMolLoop_fst (rest mol : List (Nat × QAtom)) :
    (sanitizeMolLoop mol rest).1 =
      mol.filter (fun p => decide (p.1 ∉ flaggedIdxs rest)) := by
  induction rest generalizing mol with
  | nil => simp [sanitizeMolLoop, flaggedIdxs]
  | cons p rest ih =>
      obtain ⟨i, a⟩ := p
      by_cases h : atomFlagged a
      · have hfl : flaggedIdxs ((i, a) :: rest) = i :: flaggedIdxs rest := by
          simp [flaggedIdxs, h]
        simp only [sanitizeMolLoop, h, if_true]
        rw [ih, hfl]
        unfold removeAtomsByIdx
        rw [List.filter_filter]
        apply List.filter_congr
        intro x _
        by_cases hx : x.1 = i <;> by_cases hx2 : x.1 ∈ flaggedIdxs rest <;>
          simp [hx, hx2]
      · have hfl : flaggedIdxs ((i, a) :: rest) = flaggedIdxs rest := by
          simp [flaggedIdxs, h]
        have hrm : removeAtomsByIdx mol [] = mol := by
          simp [removeAtomsByIdx]
        simp only [sanitizeMolLoop, h, Bool.false_eq_true, if_false]
        rw [hrm, ih, hfl]

theorem mem_flaggedIdxs_enum (mol : List QAtom) (p : Nat × QAtom)
    (hp : p ∈ mol.enum) : p.1 ∈ flaggedIdxs mol.enum ↔ atomFlagged p.2 := by
  have hnodup : (mol.enum.map Prod.fst).Nodup := by
    rw [List.enum_map_fst]
    exact List.nodup_range mol.length
  constructor
  · intro hmem
    unfold flaggedIdxs at hmem
    rcases List.mem_map.1 hmem with ⟨q, hq, hq1⟩
    rcases List.mem_filter.1 hq with ⟨hqmem, hqflag⟩
    have : q = p := List.inj_on_of_nodup_map hnodup hqmem hp hq1
    rw [this] at hqflag
    exact hqflag
  · intro hflag
    unfold flaggedIdxs
    exact List.mem_map.2 ⟨p, List.mem_filter.2 ⟨hp, hflag⟩, rfl⟩

theorem sanitize_molecule_fst_eq_filter (mol : List QAtom) :
    (sanitize_indigo_query_molecule mol).1 =
      mol.filter (fun a => !atomFlagged a) := by
  show ((sanitizeMolLoop mol.enum mol.enum).1.map (·.2)) = _
  rw [sanitizeMolLoop_fst]
  have hcongr :
      mol.enum.filter (fun p => decide (p.1 ∉ flaggedIdxs mol.enum)) =
        mol.enum.filter (fun p => !atomFlagged p.2) := by
    apply List.filter_congr
    intro p hp
    have := mem_flaggedIdxs_enum mol p hp
    by_cases hflag : atomFlagged p.2
    · simp [hflag, this.2 hflag]
    · have : p.1 ∉ flaggedIdxs mol.enum := fun hc => hflag (this.1 hc)
      simp [hflag, this]
  rw [hcongr]
  have h := List.map_filter (p := fun a => !atomFlagged a) Prod.snd mol.enum
  rw [List.enum_map_snd] at h
  rw [show ((·.2) : Nat × QAtom → QAtom) = Prod.snd from rfl]
  rw [h]
  congr 1

theorem sanitize_molecule_trace_length (mol : List QAtom) :
    (sanitize_indigo_query_molecule mol).2.length = mol.length := by
  show (sanitizeMolLoop mol.enum mol.enum).2.length = _
  rw [sanitizeMolLoop_trace_length, List.enum_length]

theorem sanitize_molecule_not_pos_length (m : List QAtom)
    (hnp : ¬0 < (sanitize_indigo_query_molecule m).1.length) :
    ∀ a ∈ m, atomFlagged a := by
  intro a ham
  by_contra hflag
  apply hnp
  rw [sanitize_molecule_fst_eq_filter]
  exact List.length_pos.2
    (List.ne_nil_of_mem (List.mem_filter.2 ⟨ham, by simp [hflag]⟩))

theorem addCleaned_eq_nil (mols : List (List QAtom)) :
    addCleaned mols = [] ↔ ∀ m ∈ mols, ∀ a ∈ m, atomFlagged a := by
  induction mols with
  | nil => simp [addCleaned]
  | cons m rest ih =>
      have hstep : addCleaned (m :: rest) =
          (if 0 < (sanitize_indigo_query_molecule m).1.length
           then (sanitize_indigo_query_molecule m).1 :: addCleaned rest
           else addCleaned rest) := rfl
      rw [hstep]
      by_cases h : 0 < (sanitize_indigo_query_molecule m).1.length
      · rw [if_pos h]
        constructor
        · intro hc
          exact absurd hc (List.cons_ne_nil _ _)
        · intro hall
          exfalso
          rw [sanitize_molecule_fst_eq_filter] at h
          rcases List.exists_mem_of_length_pos h with ⟨a, ha⟩
          rcases List.mem_filter.1 ha with ⟨ham, hflag⟩
          have := hall m (List.mem_cons_self m rest) a ham
          simp [this] at hflag
      · rw [if_neg h, ih]
        constructor
        · intro hrest m' hm'
          rcases List.mem_cons.1 hm' with h' | h'
          · rw [h']
            exact sanitize_molecule_not_pos_length m h
          · exact hrest m' h'
        · intro hall m' hm'
          exact hall m' (List.mem_cons_of_mem _ hm')

theorem overrideLookup_nil (inst : Inst) (k : String) :
    overrideLookup [] inst k = lookupPy inst k := rfl

theorem lookupPy_append (l1 l2 : List (String × PyVal)) (k : String) :
    lookupPy (l1 ++ l2) k =
      match lookupPy l1 k with
      | some v => some v
      | none => lookupPy l2 k := by
  induction l1 with
  | nil => simp [lookupPy]
  | cons p rest ih =>
      obtain ⟨k0, v0⟩ := p
      by_cases h : k0 = k <;> simp [lookupPy, h, ih]

theorem lookup_one_write (inst : Inst) (k1 k : String) (v1 : PyVal) :
    lookupPy (rawSet inst k1 v1) k = overrideLookup [(k1, v1)] inst k := by
  rw [lookupPy_rawSet]
  unfold overrideLookup
  by_cases h : k1 = k <;> simp [lookupPy, h]

theorem lookup_two_writes (inst : Inst) (k1 k2 k : String) (v1 v2 : PyVal)
    (hne : k1 ≠ k2) :
    lookupPy (rawSet (rawSet inst k1 v1) k2 v2) k =
      overrideLookup [(k1, v1), (k2, v2)] inst k := by
  rw [lookupPy_rawSet, lookupPy_rawSet]
  unfold overrideLookup
  by_cases h1 : k1 = k
  · by_cases h2 : k2 = k
    · exact absurd (h1.trans h2.symm) hne
    · simp [lookupPy, h1, h2]
  · by_cases h2 : k2 = k
    · simp [lookupPy, h1, h2]
    · simp [lookupPy, h1, h2]

theorem lookup_two_writes_twice (inst : Inst) (k1 k2 k : String)
    (a b c d : PyVal) (hne : k1 ≠ k2) :
    lookupPy (rawSet (rawSet (rawSet (rawSet inst k1 a) k2 b) k1 c) k2 d) k =
      overrideLookup [(k1, c), (k2, d)] inst k := by
  rw [lookupPy_rawSet, lookupPy_rawSet, lookupPy_rawSet, lookupPy_rawSet]
  unfold overrideLookup
  by_cases h1 : k1 = k
  · by_cases h2 : k2 = k
    · exact absurd (h1.trans h2.symm) hne
    · simp [lookupPy, h1, h2]
  · by_cases h2 : k2 = k
    · simp [lookupPy, h1, h2]
    · simp [lookupPy, h1, h2]

theorem swallows_congr (csem : Csem) (inst inst' : Inst)
    (h : lookupPy inst' "error_handler" = lookupPy inst "error_handler")
    (hs : Swallows csem inst) : Swallows csem inst' := by
  intro e
  have he := hs e
  unfold check_error at he ⊢
  rw [h]
  exact he

theorem skip_handler_swallows (csem : Csem) (inst : Inst)
    (h : lookupPy inst "error_handler" = some (.vHandler .skipErrors)) :
    Swallows csem inst := by
  intro e
  unfold check_error
  rw [h]

theorem reportStep_swallows (csem : Csem) (inst : Inst) (tag : String)
    (e : PyErr) (hsw : Swallows csem inst) :
    reportStep csem inst tag e = (.ok inst, [(tag, e)]) := by
  unfold reportStep
  rw [hsw e]

theorem reportStep_fst_ok (csem : Csem) (inst : Inst) (tag : String)
    (e : PyErr) (out : Inst) (h : (reportStep csem inst tag e).1 = .ok out) :
    out = inst := by
  unfold reportStep at h
  cases hc : check_error csem inst e with
  | ok u => rw [hc] at h; injection h with h'; exact h'.symm
  | error e' => rw [hc] at h; cases h

theorem reportStep_snd (csem : Csem) (inst : Inst) (tag : String) (e : PyErr) :
    (reportStep csem inst tag e).2 = [(tag, e)] := by
  unfold reportStep
  cases hc : check_error csem inst e <;> rfl

theorem fingerprintStep_skipChar (csem : Csem) (r : Except String String)
    (kind : String)
    (hne : kind ++ "_fingerprint" ≠ kind ++ "_fingerprint_len")
    (heh1 : kind ++ "_fingerprint" ≠ "error_handler")
    (heh2 : kind ++ "_fingerprint_len" ≠ "error_handler") :
    SkipChar csem (fingerprintStep csem r kind) (fpWrites kind r) := by
  intro inst hsw
  have hsw0 : Swallows csem
      (rawSet (rawSet inst (kind ++ "_fingerprint") (.vIntList []))
        (kind ++ "_fingerprint_len") (.vInt 0)) := by
    refine swallows_congr csem inst _ ?_ hsw
    rw [lookupPy_rawSet, lookupPy_rawSet]
    simp [heh1, heh2]
  cases r with
  | error m =>
      refine ⟨rawSet (rawSet inst (kind ++ "_fingerprint") (.vIntList []))
        (kind ++ "_fingerprint_len") (.vInt 0), ?_, ?_⟩
      · simp only [fingerprintStep]
        rw [reportStep_swallows csem _ _ _ hsw0]
      · intro k
        rw [lookup_two_writes inst _ _ k _ _ hne]
        rfl
  | ok s =>
      by_cases hs0 : s = ""
      · subst hs0
        refine ⟨rawSet (rawSet inst (kind ++ "_fingerprint") (.vIntList []))
          (kind ++ "_fingerprint_len") (.vInt 0), ?_, ?_⟩
        · simp only [fingerprintStep]
          simp
        · intro k
          rw [lookup_two_writes inst _ _ k _ _ hne]
          rfl
      · cases hp : pyParseIntList (pySplitSpace s) with
        | some fp =>
            refine ⟨rawSet (rawSet
                (rawSet (rawSet inst (kind ++ "_fingerprint") (.vIntList []))
                  (kind ++ "_fingerprint_len") (.vInt 0))
                (kind ++ "_fingerprint") (.vIntList fp))
              (kind ++ "_fingerprint_len") (.vInt (fp.length : Int)), ?_, ?_⟩
            · simp only [fingerprintStep]
              rw [if_neg hs0, hp]
            · intro k
              rw [lookup_two_writes_twice inst _ _ k _ _ _ _ hne]
              simp only [fpWrites, fpFields]
              rw [if_neg hs0, hp]
        | none =>
            refine ⟨rawSet (rawSet inst (kind ++ "_fingerprint") (.vIntList []))
              (kind ++ "_fingerprint_len") (.vInt 0), ?_, ?_⟩
            · simp only [fingerprintStep]
              rw [if_neg hs0, hp]
              rw [reportStep_swallows csem _ _ _ hsw0]
            · intro k
              rw [lookup_two_writes inst _ _ k _ _ hne]
              simp only [fpWrites, fpFields]
              rw [if_neg hs0, hp]

theorem lookup_rawSet_ne (inst : Inst) (k' k : String) (v : PyVal)
    (h : ¬k' = k) : lookupPy (rawSet inst k' v) k = lookupPy inst k := by
  rw [lookupPy_rawSet, if_neg h]

theorem cmfStep_skipChar (csem : Csem) (r : Except String (List Nat)) :
    SkipChar csem (cmfStep csem r) (cmfWrites r) := by
  intro inst hsw
  cases r with
  | ok bytes =>
      refine ⟨rawSet inst "cmf" (.vStr (String.intercalate " " (bytes.map toString))), rfl, ?_⟩
      intro k
      rw [lookup_one_write]
      rfl
  | error m =>
      have hsw0 : Swallows csem (rawSet inst "cmf" (.vStr "")) := by
        refine swallows_congr csem inst _ ?_ hsw
        rw [lookupPy_rawSet]
        simp
      refine ⟨rawSet inst "cmf" (.vStr ""), ?_, ?_⟩
      · simp only [cmfStep]
        rw [reportStep_swallows csem _ _ _ hsw0]
      · intro k
        rw [lookup_one_write]
        rfl

theorem nameStep_skipChar (csem : Csem) (r : Except String String) :
    SkipChar csem (nameStep csem r) (nameWrites r) := by
  intro inst hsw
  cases r with
  | ok s =>
      refine ⟨rawSet inst "name" (.vStr s), rfl, ?_⟩
      intro k
      rw [lookup_one_write]
      rfl
  | error m =>
      have hsw0 : Swallows csem (rawSet inst "name" (.vStr "")) := by
        refine swallows_congr csem inst _ ?_ hsw
        rw [lookupPy_rawSet]
        simp
      refine ⟨rawSet inst "name" (.vStr ""), ?_, ?_⟩
      · simp only [nameStep]
        rw [reportStep_swallows csem _ _ _ hsw0]
      · intro k
        rw [lookup_one_write]
        rfl

theorem valenceStep_skipChar (csem : Csem) (r : Except String Bool) :
    SkipChar csem (valenceStep csem r) (valWrites r) := by
  intro inst hsw
  cases r with
  | ok b =>
      cases b
      · refine ⟨rawSet inst "has_error" (.vInt 0), rfl, ?_⟩
        intro k
        rw [lookup_one_write]
        rfl
      · refine ⟨rawSet inst "has_error" (.vInt 1), rfl, ?_⟩
        intro k
        rw [lookup_one_write]
        rfl
  | error m =>
      refine ⟨inst, ?_, ?_⟩
      · simp only [valenceStep]
        rw [reportStep_swallows csem _ _ _ hsw]
      · intro k
        rfl

theorem hashStep_skipChar (csem : Csem) (tyRes : Except String String)
    (compRes : Except String (List Int)) (wholeRes : Except String Int) :
    SkipChar csem (hashStep csem tyRes compRes wholeRes)
      (hashWrites tyRes compRes wholeRes) := by
  intro inst hsw
  cases tyRes with
  | error m =>
      refine ⟨inst, ?_, fun k => rfl⟩
      simp only [hashStep]
      rw [reportStep_swallows csem _ _ _ hsw]
  | ok t =>
      by_cases hm : t ∈ MOL_TYPES
      · cases compRes with
        | ok hs =>
            refine ⟨rawSet inst "hash" (.vIntList (pySortedSet hs)), ?_, ?_⟩
            · simp only [hashStep]
              rw [if_pos hm]
            · intro k
              rw [lookup_one_write]
              simp only [hashWrites]
              rw [if_pos hm]
        | error m =>
            refine ⟨inst, ?_, ?_⟩
            · simp only [hashStep]
              rw [if_pos hm]
              rw [reportStep_swallows csem _ _ _ hsw]
            · intro k
              simp only [hashWrites]
              rw [if_pos hm]
              rfl
      · by_cases hr : t ∈ REAC_TYPES
        · cases wholeRes with
          | ok h =>
              refine ⟨rawSet inst "hash" (.vIntList [h]), ?_, ?_⟩
              · simp only [hashStep]
                rw [if_neg hm, if_pos hr]
              · intro k
                rw [lookup_one_write]
                simp only [hashWrites]
                rw [if_neg hm, if_pos hr]
          | error m =>
              refine ⟨inst, ?_, ?_⟩
              · simp only [hashStep]
                rw [if_neg hm, if_pos hr]
                rw [reportStep_swallows csem _ _ _ hsw]
              · intro k
                simp only [hashWrites]
                rw [if_neg hm, if_pos hr]
                rfl
        · refine ⟨inst, ?_, ?_⟩
          · simp only [hashStep]
            rw [if_neg hm, if_neg hr]
          · intro k
            simp only [hashWrites]
            rw [if_neg hm, if_neg hr]
            rfl

theorem fingerprintStep_writesOnly (csem : Csem) (r : Except String String)
    (kind : String) :
    WritesOnly (fingerprintStep csem r kind)
      [kind ++ "_fingerprint", kind ++ "_fingerprint_len"] := by
  intro inst out hok k hk
  rw [List.mem_cons, List.mem_cons] at hk
  push_neg at hk
  obtain ⟨hk1, hk2, -⟩ := hk
  have hne1 : ¬(kind ++ "_fingerprint" = k) := fun hh => hk1 hh.symm
  have hne2 : ¬(kind ++ "_fingerprint_len" = k) := fun hh => hk2 hh.symm
  cases r with
  | error m =>
      simp only [fingerprintStep] at hok
      have hout := reportStep_fst_ok _ _ _ _ _ hok
      rw [hout, lookup_rawSet_ne _ _ _ _ hne2, lookup_rawSet_ne _ _ _ _ hne1]
  | ok s =>
      simp only [fingerprintStep] at hok
      by_cases hs0 : s = ""
      · rw [if_pos hs0] at hok
        have hout : Except.ok (rawSet (rawSet inst (kind ++ "_fingerprint")
            (.vIntList [])) (kind ++ "_fingerprint_len") (.vInt 0)) =
              Except.ok out := hok
        injection hout with hout'
        rw [← hout', lookup_rawSet_ne _ _ _ _ hne2, lookup_rawSet_ne _ _ _ _ hne1]
      · rw [if_neg hs0] at hok
        cases hp : pyParseIntList (pySplitSpace s) with
        | some fp =>
            rw [hp] at hok
            have hout : Except.ok (rawSet (rawSet
                (rawSet (rawSet inst (kind ++ "_fingerprint") (.vIntList []))
                  (kind ++ "_fingerprint_len") (.vInt 0))
                (kind ++ "_fingerprint") (.vIntList fp))
              (kind ++ "_fingerprint_len") (.vInt (fp.length : Int))) =
                Except.ok out := hok
            injection hout with hout'
            rw [← hout', lookup_rawSet_ne _ _ _ _ hne2,
              lookup_rawSet_ne _ _ _ _ hne1, lookup_rawSet_ne _ _ _ _ hne2,
              lookup_rawSet_ne _ _ _ _ hne1]
        | none =>
            rw [hp] at hok
            have hout := reportStep_fst_ok _ _ _ _ _ hok
            rw [hout, lookup_rawSet_ne _ _ _ _ hne2, lookup_rawSet_ne _ _ _ _ hne1]

theorem cmfStep_writesOnly (csem : Csem) (r : Except String (List Nat)) :
    WritesOnly (cmfStep csem r) ["cmf"] := by
  intro inst out hok k hk
  have hne : ¬("cmf" = k) := fun hh => hk (by rw [← hh]; exact List.mem_cons_self _ _)
  cases r with
  | ok bytes =>
      have hout : Except.ok (rawSet inst "cmf"
          (.vStr (String.intercalate " " (bytes.map toString)))) = Except.ok out := hok
      injection hout with hout'
      rw [← hout', lookup_rawSet_ne _ _ _ _ hne]
  | error m =>
      simp only [cmfStep] at hok
      have hout := reportStep_fst_ok _ _ _ _ _ hok
      rw [hout, lookup_rawSet_ne _ _ _ _ hne]

theorem nameStep_writesOnly (csem : Csem) (r : Except String String) :
    WritesOnly (nameStep csem r) ["name"] := by
  intro inst out hok k hk
  have hne : ¬("name" = k) := fun hh => hk (by rw [← hh]; exact List.mem_cons_self _ _)
  cases r with
  | ok s =>
      have hout : Except.ok (rawSet inst "name" (.vStr s)) = Except.ok out := hok
      injection hout with hout'
      rw [← hout', lookup_rawSet_ne _ _ _ _ hne]
  | error m =>
      simp only [nameStep] at hok
      have hout := reportStep_fst_ok _ _ _ _ _ hok
      rw [hout, lookup_rawSet_ne _ _ _ _ hne]

theorem valenceStep_writesOnly (csem : Csem) (r : Except String Bool) :
    WritesOnly (valenceStep csem r) ["has_error"] := by
  intro inst out hok k hk
  have hne : ¬("has_error" = k) := fun hh => hk (by rw [← hh]; exact List.mem_cons_self _ _)
  cases r with
  | ok b =>
      cases b
      · have hout : Except.ok (rawSet inst "has_error" (.vInt 0)) = Except.ok out := hok
        injection hout with hout'
        rw [← hout', lookup_rawSet_ne _ _ _ _ hne]
      · have hout : Except.ok (rawSet inst "has_error" (.vInt 1)) = Except.ok out := hok
        injection hout with hout'
        rw [← hout', lookup_rawSet_ne _ _ _ _ hne]
  | error m =>
      simp only [valenceStep] at hok
      have hout := reportStep_fst_ok _ _ _ _ _ hok
      rw [hout]

theorem hashStep_writesOnly (csem : Csem) (tyRes : Except String String)
    (compRes : Except String (List Int)) (wholeRes : Except String Int) :
    WritesOnly (hashStep csem tyRes compRes wholeRes) ["hash"] := by
  intro inst out hok k hk
  have hne : ¬("hash" = k) := fun hh => hk (by rw [← hh]; exact List.mem_cons_self _ _)
  cases tyRes with
  | error m =>
      simp only [hashStep] at hok
      have hout := reportStep_fst_ok _ _ _ _ _ hok
      rw [hout]
  | ok t =>
      simp only [hashStep] at hok
      by_cases hm : t ∈ MOL_TYPES
      · rw [if_pos hm] at hok
        cases compRes with
        | ok hs =>
            have hout : Except.ok (rawSet inst "hash" (.vIntList (pySortedSet hs))) =
                Except.ok out := hok
            injection hout with hout'
            rw [← hout', lookup_rawSet_ne _ _ _ _ hne]
        | error m =>
            have hout := reportStep_fst_ok _ _ _ _ _ hok
            rw [hout]
      · rw [if_neg hm] at hok
        by_cases hr : t ∈ REAC_TYPES
        · rw [if_pos hr] at hok
          cases wholeRes with
          | ok h =>
              have hout : Except.ok (rawSet inst "hash" (.vIntList [h])) =
                  Except.ok out := hok
              injection hout with hout'
              rw [← hout', lookup_rawSet_ne _ _ _ _ hne]
          | error m =>
              have hout := reportStep_fst_ok _ _ _ _ _ hok
              rw [hout]
        · rw [if_neg hr] at hok
          have hout : Except.ok inst = Except.ok out := hok
          injection hout with hout'
          rw [← hout']

theorem fingerprintStep_eventTags (csem : Csem) (r : Except String String)
    (kind : String) :
    EventTags (fingerprintStep csem r kind) ["fingerprint-" ++ kind] := by
  intro inst ev hm
  cases r with
  | error m =>
      simp only [fingerprintStep] at hm
      rw [reportStep_snd] at hm
      rw [List.mem_singleton.1 hm]
      exact List.mem_cons_self _ _
  | ok s =>
      simp only [fingerprintStep] at hm
      by_cases hs0 : s = ""
      · rw [if_pos hs0] at hm
        cases hm
      · rw [if_neg hs0] at hm
        cases hp : pyParseIntList (pySplitSpace s) with
        | some fp =>
            rw [hp] at hm
            cases hm
        | none =>
            rw [hp] at hm
            rw [reportStep_snd] at hm
            rw [List.mem_singleton.1 hm]
            exact List.mem_cons_self _ _

theorem cmfStep_eventTags (csem : Csem) (r : Except String (List Nat)) :
    EventTags (cmfStep csem r) ["cmf"] := by
  intro inst ev hm
  cases r with
  | ok bytes => cases hm
  | error m =>
      simp only [cmfStep] at hm
      rw [reportStep_snd] at hm
      rw [List.mem_singleton.1 hm]
      exact List.mem_cons_self _ _

theorem nameStep_eventTags (csem : Csem) (r : Except String String) :
    EventTags (nameStep csem r) ["name"] := by
  intro inst ev hm
  cases r with
  | ok s => cases hm
  | error m =>
      simp only [nameStep] at hm
      rw [reportStep_snd] at hm
      rw [List.mem_singleton.1 hm]
      exact List.mem_cons_self _ _

theorem valenceStep_eventTags (csem : Csem) (r : Except String Bool) :
    EventTags (valenceStep csem r) ["valence"] := by
  intro inst ev hm
  cases r with
  | ok b => cases b <;> cases hm
  | error m =>
      simp only [valenceStep] at hm
      rw [reportStep_snd] at hm
      rw [List.mem_singleton.1 hm]
      exact List.mem_cons_self _ _

theorem hashStep_eventTags (csem : Csem) (tyRes : Except String String)
    (compRes : Except String (List Int)) (wholeRes : Except String Int) :
    EventTags (hashStep csem tyRes compRes wholeRes) ["hash"] := by
  intro inst ev hm
  cases tyRes with
  | error m =>
      simp only [hashStep] at hm
      rw [reportStep_snd] at hm
      rw [List.mem_singleton.1 hm]
      exact List.mem_cons_self _ _
  | ok t =>
      simp only [hashStep] at hm
      by_cases hmem : t ∈ MOL_TYPES
      · rw [if_pos hmem] at hm
        cases compRes with
        | ok hs => cases hm
        | error m =>
            rw [reportStep_snd] at hm
            rw [List.mem_singleton.1 hm]
            exact List.mem_cons_self _ _
      · rw [if_neg hmem] at hm
        by_cases hr : t ∈ REAC_TYPES
        · rw [if_pos hr] at hm
          cases wholeRes with
          | ok h => cases hm
          | error m =>
              rw [reportStep_snd] at hm
              rw [List.mem_singleton.1 hm]
              exact List.mem_cons_self _ _
        · rw [if_neg hr] at hm
          cases hm

theorem hashStep_unknown_events (csem : Csem) (t : String)
    (compRes : Except String (List Int)) (wholeRes : Except String Int)
    (hm : t ∉ MOL_TYPES) (hr : t ∉ REAC_TYPES) (inst : Inst) :
    hashStep csem (.ok t) compRes wholeRes inst = (.ok inst, []) := by
  simp only [hashStep]
  rw [if_neg hm, if_neg hr]

theorem lookupPy_ne_none_iff (ws : List (String × PyVal)) (k : String) :
    lookupPy ws k ≠ none ↔ k ∈ ws.map Prod.fst := by
  induction ws with
  | nil => simp [lookupPy]
  | cons p rest ih =>
      obtain ⟨k0, v0⟩ := p
      by_cases h : k0 = k
      · subst h
        simp [lookupPy]
      · have h' : ¬k = k0 := fun hh => h hh.symm
        simp [lookupPy, h, h', ih]

theorem lookup_singleton_ne (k0 k : String) (v : PyVal) (h : ¬k0 = k) :
    lookupPy [(k0, v)] k = none := by
  simp [lookupPy, h]

theorem lookupPy_append_none (l1 l2 : List (String × PyVal)) (k : String)
    (h1 : lookupPy l1 k = none) (h2 : lookupPy l2 k = none) :
    lookupPy (l1 ++ l2) k = none := by
  rw [lookupPy_append, h1]
  exact h2

theorem fpWrites_lookup_ne (kind : String) (r : Except String String)
    (k : String) (h1 : ¬(kind ++ "_fingerprint") = k)
    (h2 : ¬(kind ++ "_fingerprint_len") = k) :
    lookupPy (fpWrites kind r) k = none := by
  simp [fpWrites, lookupPy, h1, h2]

theorem cmfWrites_lookup_ne (r : Except String (List Nat)) (k : String)
    (h : ¬"cmf" = k) : lookupPy (cmfWrites r) k = none := by
  simp [cmfWrites, lookupPy, h]

theorem nameWrites_lookup_ne (r : Except String String) (k : String)
    (h : ¬"name" = k) : lookupPy (nameWrites r) k = none := by
  simp [nameWrites, lookupPy, h]

theorem hashWrites_lookup_ne (tyRes : Except String String)
    (compRes : Except String (List Int)) (wholeRes : Except String Int)
    (k : String) (h : ¬"hash" = k) :
    lookupPy (hashWrites tyRes compRes wholeRes) k = none := by
  cases tyRes with
  | error m => rfl
  | ok t =>
      simp only [hashWrites]
      by_cases hm : t ∈ MOL_TYPES
      · rw [if_pos hm]
        cases compRes with
        | ok hs => exact lookup_singleton_ne _ _ _ h
        | error m => rfl
      · rw [if_neg hm]
        by_cases hr : t ∈ REAC_TYPES
        · rw [if_pos hr]
          cases wholeRes with
          | ok hh => exact lookup_singleton_ne _ _ _ h
          | error m => rfl
        · rw [if_neg hr]
          rfl

theorem valWrites_lookup_ne (r : Except String Bool) (k : String)
    (h : ¬"has_error" = k) : lookupPy (valWrites r) k = none := by
  unfold valWrites
  cases r with
  | ok b => exact lookup_singleton_ne _ _ _ h
  | error m => rfl

theorem writesOnly_mono {f : StepFun} {K K' : List String}
    (h : WritesOnly f K) (hsub : ∀ x ∈ K, x ∈ K') : WritesOnly f K' := by
  intro inst out hok k hk
  exact h inst out hok k (fun hmem => hk (hsub k hmem))

theorem eventTags_mono {f : StepFun} {T T' : List String}
    (h : EventTags f T) (hsub : ∀ x ∈ T, x ∈ T') : EventTags f T' := by
  intro inst ev hm
  exact hsub ev.1 (h inst ev hm)

theorem afterAromatize_writesOnly (csem : Csem) (B : PopBackend) :
    WritesOnly (afterAromatize csem B) popFieldKeys := by
  have h := writesOnly_seq (fingerprintStep_writesOnly csem B.simFpRes "sim")
    (writesOnly_seq (fingerprintStep_writesOnly csem B.subFpRes "sub")
      (writesOnly_seq (cmfStep_writesOnly csem B.serializeRes)
        (writesOnly_seq (nameStep_writesOnly csem B.nameRes)
          (writesOnly_seq
            (hashStep_writesOnly csem B.internalTypeRes B.componentHashesRes
              B.wholeHashRes)
            (valenceStep_writesOnly csem B.badValenceRes)))))
  exact writesOnly_mono h (by decide)

theorem afterAromatize_eventTags (csem : Csem) (B : PopBackend) :
    EventTags (afterAromatize csem B)
      ["fingerprint-sim", "fingerprint-sub", "cmf", "name", "hash", "valence"] := by
  have h := eventTags_seq (fingerprintStep_eventTags csem B.simFpRes "sim")
    (eventTags_seq (fingerprintStep_eventTags csem B.subFpRes "sub")
      (eventTags_seq (cmfStep_eventTags csem B.serializeRes)
        (eventTags_seq (nameStep_eventTags csem B.nameRes)
          (eventTags_seq
            (hashStep_eventTags csem B.internalTypeRes B.componentHashesRes
              B.wholeHashRes)
            (valenceStep_eventTags csem B.badValenceRes)))))
  exact eventTags_mono h (by decide)

theorem skipChar_seq {csem : Csem} {f g : StepFun}
    {Wf Wg : List (String × PyVal)}
    (hf : SkipChar csem f Wf) (hg : SkipChar csem g Wg)
    (hWfeh : lookupPy Wf "error_handler" = none)
    (hdisj : ∀ k, lookupPy Wf k ≠ none → lookupPy Wg k = none) :
    SkipChar csem (seqStep f g) (Wf ++ Wg) := by
  intro inst hsw
  obtain ⟨mid, hmid, hmidlook⟩ := hf inst hsw
  have hswmid : Swallows csem mid := by
    refine swallows_congr csem inst mid ?_ hsw
    rw [hmidlook "error_handler"]
    unfold overrideLookup
    rw [hWfeh]
  obtain ⟨out, hout, houtlook⟩ := hg mid hswmid
  refine ⟨out, ?_, ?_⟩
  · rw [seqStep_fst_ok]
    exact ⟨mid, hmid, hout⟩
  · intro k
    have hmidk := hmidlook k
    have houtk := houtlook k
    unfold overrideLookup at hmidk houtk ⊢
    rw [lookupPy_append]
    cases hWf : lookupPy Wf k with
    | some v =>
        have hWg : lookupPy Wg k = none := hdisj k (by rw [hWf]; simp)
        rw [hWf] at hmidk
        rw [hWg] at houtk
        simp only at houtk hmidk
        rw [houtk, hmidk]
    | none =>
        rw [hWf] at hmidk
        simp only at hmidk
        cases hWg : lookupPy Wg k with
        | some w =>
            rw [hWg] at houtk
            simp only at houtk
            rw [houtk]
        | none =>
            rw [hWg] at houtk
            simp only at houtk
            rw [houtk, hmidk]

theorem afterAromatize_skipChar (csem : Csem) (B : PopBackend) :
    SkipChar csem (afterAromatize csem B) (popWrites B) := by
  have h56 := skipChar_seq
    (hashStep_skipChar csem B.internalTypeRes B.componentHashesRes B.wholeHashRes)
    (valenceStep_skipChar csem B.badValenceRes)
    (hashWrites_lookup_ne _ _ _ _ (by decide))
    (by
      intro k hk
      by_cases hkh : "has_error" = k
      · exfalso
        apply hk
        rw [← hkh]
        exact hashWrites_lookup_ne _ _ _ _ (by decide)
      · exact valWrites_lookup_ne _ _ hkh)
  have h456 := skipChar_seq (nameStep_skipChar csem B.nameRes) h56
    (nameWrites_lookup_ne _ _ (by decide))
    (by
      intro k hk
      rw [lookupPy_ne_none_iff] at hk
      simp [nameWrites] at hk
      subst hk
      exact lookupPy_append_none _ _ _
        (hashWrites_lookup_ne _ _ _ _ (by decide))
        (valWrites_lookup_ne _ _ (by decide)))
  have h3456 := skipChar_seq (cmfStep_skipChar csem B.serializeRes) h456
    (cmfWrites_lookup_ne _ _ (by decide))
    (by
      intro k hk
      rw [lookupPy_ne_none_iff] at hk
      simp [cmfWrites] at hk
      subst hk
      exact lookupPy_append_none _ _ _ (nameWrites_lookup_ne _ _ (by decide))
        (lookupPy_append_none _ _ _
          (hashWrites_lookup_ne _ _ _ _ (by decide))
          (valWrites_lookup_ne _ _ (by decide))))
  have h23456 := skipChar_seq (fingerprintStep_skipChar csem B.subFpRes "sub"
      (by decide) (by decide) (by decide)) h3456
    (fpWrites_lookup_ne _ _ _ (by decide) (by decide))
    (by
      intro k hk
      rw [lookupPy_ne_none_iff] at hk
      simp [fpWrites] at hk
      rcases hk with hk | hk <;> subst hk <;>
        exact lookupPy_append_none _ _ _ (cmfWrites_lookup_ne _ _ (by decide))
          (lookupPy_append_none _ _ _ (nameWrites_lookup_ne _ _ (by decide))
            (lookupPy_append_none _ _ _
              (hashWrites_lookup_ne _ _ _ _ (by decide))
              (valWrites_lookup_ne _ _ (by decide)))))
  have hall := skipChar_seq (fingerprintStep_skipChar csem B.simFpRes "sim"
      (by decide) (by decide) (by decide)) h23456
    (fpWrites_lookup_ne _ _ _ (by decide) (by decide))
    (by
      intro k hk
      rw [lookupPy_ne_none_iff] at hk
      simp [fpWrites] at hk
      rcases hk with hk | hk <;> subst hk <;>
        exact lookupPy_append_none _ _ _
          (fpWrites_lookup_ne _ _ _ (by decide) (by decide))
          (lookupPy_append_none _ _ _ (cmfWrites_lookup_ne _ _ (by decide))
            (lookupPy_append_none _ _ _ (nameWrites_lookup_ne _ _ (by decide))
              (lookupPy_append_none _ _ _
                (hashWrites_lookup_ne _ _ _ _ (by decide))
                (valWrites_lookup_ne _ _ (by decide))))))
  exact hall

theorem set_ok_ok (csem : Csem) (B : PopBackend) (inst : Inst)
    (hc : B.cloneRes = .ok ()) (ha : B.aromatizeRes = .ok ()) :
    WithIndigoObject.set csem B inst = afterAromatize csem B inst := by
  unfold WithIndigoObject.set
  rw [hc, ha]

theorem set_clone_fail (csem : Csem) (B : PopBackend) (inst : Inst)
    (m : String) (hc : B.cloneRes = .error m) :
    WithIndigoObject.set csem B inst =
      reportStep csem inst "clone" (.indigoErr m) := by
  unfold WithIndigoObject.set
  rw [hc]

theorem set_aromatize_fail (csem : Csem) (B : PopBackend) (inst : Inst)
    (m : String) (hc : B.cloneRes = .ok ()) (ha : B.aromatizeRes = .error m) :
    WithIndigoObject.set csem B inst = (.error (.indigoErr m), []) := by
  unfold WithIndigoObject.set
  rw [hc, ha]

theorem seqStep_fst_error (f g : StepFun) (inst : Inst) (e : PyErr)
    (h : (f inst).1 = .error e) : (seqStep f g inst).1 = .error e := by
  unfold seqStep
  rcases hf : f inst with ⟨r, ev⟩
  rw [hf] at h
  cases r with
  | ok mid => cases h
  | error e' =>
      injection h with h'
      rw [h']

theorem fingerprintStep_error_propagate (csem : Csem) (m kind : String)
    (inst : Inst) (hh : lookupPy inst "error_handler" = none)
    (h1 : ¬(kind ++ "_fingerprint") = "error_handler")
    (h2 : ¬(kind ++ "_fingerprint_len") = "error_handler") :
    (fingerprintStep csem (.error m) kind inst).1 = .error (.indigoErr m) := by
  simp only [fingerprintStep]
  have hl : lookupPy
      (rawSet (rawSet inst (kind ++ "_fingerprint") (.vIntList []))
        (kind ++ "_fingerprint_len") (.vInt 0)) "error_handler" = none := by
    rw [lookup_rawSet_ne _ _ _ _ h2, lookup_rawSet_ne _ _ _ _ h1, hh]
  unfold reportStep check_error
  rw [hl]

theorem valenceStep_ok_val (csem : Csem) (b : Bool) (inst out : Inst)
    (h : (valenceStep csem (.ok b) inst).1 = .ok out) :
    lookupPy out "has_error" = some (.vInt (if b then 1 else 0)) := by
  cases b with
  | false =>
      have h' : Except.ok (rawSet inst "has_error" (.vInt 0)) = .ok out := h
      injection h' with h''
      rw [← h'', lookupPy_rawSet, if_pos rfl]
      rfl
  | true =>
      have h' : Except.ok (rawSet inst "has_error" (.vInt 1)) = .ok out := h
      injection h' with h''
      rw [← h'', lookupPy_rawSet, if_pos rfl]
      rfl

theorem valenceStep_error_ok (csem : Csem) (m : String) (inst out : Inst)
    (h : (valenceStep csem (.error m) inst).1 = .ok out) : out = inst := by
  simp only [valenceStep] at h
  exact reportStep_fst_ok _ _ _ _ _ h

theorem hashStep_mol_val (csem : Csem) (t : String) (hs : List Int)
    (wholeRes : Except String Int) (inst out : Inst) (hm : t ∈ MOL_TYPES)
    (h : (hashStep csem (.ok t) (.ok hs) wholeRes inst).1 = .ok out) :
    lookupPy out "hash" = some (.vIntList (pySortedSet hs)) := by
  simp only [hashStep] at h
  rw [if_pos hm] at h
  have h' : Except.ok (rawSet inst "hash" (.vIntList (pySortedSet hs))) = .ok out := h
  injection h' with h''
  rw [← h'', lookupPy_rawSet, if_pos rfl]

theorem hashStep_reac_val (csem : Csem) (t : String)
    (compRes : Except String (List Int)) (hsh : Int) (inst out : Inst)
    (hm : t ∉ MOL_TYPES) (hr : t ∈ REAC_TYPES)
    (h : (hashStep csem (.ok t) compRes (.ok hsh) inst).1 = .ok out) :
    lookupPy out "hash" = some (.vIntList [hsh]) := by
  simp only [hashStep] at h
  rw [if_neg hm, if_pos hr] at h
  have h' : Except.ok (rawSet inst "hash" (.vIntList [hsh])) = .ok out := h
  injection h' with h''
  rw [← h'', lookupPy_rawSet, if_pos rfl]

theorem pySortedSet_perm (l1 l2 : List Int) (h : l1.Perm l2) :
    pySortedSet l1 = pySortedSet l2 := by
  unfold pySortedSet
  refine List.eq_of_perm_of_sorted (r := fun a b : Int => a ≤ b) ?_ ?_ ?_
  · exact ((List.perm_insertionSort _ _).trans h.dedup).trans
      (List.perm_insertionSort _ _).symm
  · exact List.sorted_insertionSort _ _
  · exact List.sorted_insertionSort _ _

theorem afterAromatize_ok_chain (csem : Csem) (B : PopBackend)
    (inst out : Inst) (h : (afterAromatize csem B inst).1 = .ok out) :
    ∃ m1 m2 m3 m4 m5,
      (fingerprintStep csem B.simFpRes "sim" inst).1 = .ok m1 ∧
      (fingerprintStep csem B.subFpRes "sub" m1).1 = .ok m2 ∧
      (cmfStep csem B.serializeRes m2).1 = .ok m3 ∧
      (nameStep csem B.nameRes m3).1 = .ok m4 ∧
      (hashStep csem B.internalTypeRes B.componentHashesRes B.wholeHashRes
        m4).1 = .ok m5 ∧
      (valenceStep csem B.badValenceRes m5).1 = .ok out := by
  unfold afterAromatize at h
  obtain ⟨m1, h1, h⟩ := (seqStep_fst_ok _ _ _ _).1 h
  obtain ⟨m2, h2, h⟩ := (seqStep_fst_ok _ _ _ _).1 h
  obtain ⟨m3, h3, h⟩ := (seqStep_fst_ok _ _ _ _).1 h
  obtain ⟨m4, h4, h⟩ := (seqStep_fst_ok _ _ _ _).1 h
  obtain ⟨m5, h5, h6⟩ := (seqStep_fst_ok _ _ _ _).1 h
  exact ⟨m1, m2, m3, m4, m5, h1, h2, h3, h4, h5, h6⟩

/-- Claim C2, counterexample: with the default Propagate policy (no error
handler installed), a failure in the sim-fingerprint step — a step other
than the initial clone — makes the whole `__set__` call raise, so the
remaining steps (sub-fingerprint, serialization, name, hash, valence) do
not run, contradicting "a failure in one step aborts only that step and
every other step still runs". -/
theorem c2_counterexample :
    (WithIndigoObject.set (fun _ _ => none)
        ⟨.ok (), .ok (), .error "boom", .ok "", .ok [], .ok "nm",
          .ok "#02: <molecule>", .ok [], .ok 0, .ok false⟩ []).1 =
      .error (.indigoErr "boom") := rfl

/-- Claim C2 (amended): in `WithIndigoObject.__set__` the clone,
fingerprint, serialization, name, hash and valence steps are each guarded
by their own `try`/`except` routing to `check_error`, but aromatization is
not guarded at all, so an aromatization failure always propagates and
aborts the entire population (first conjunct).  When the installed policy
swallows every report (e.g. `skip_errors`), a failure in one guarded step
aborts only that step: population completes and every field equals the
value determined by its own step's backend results alone (second
conjunct).  Under the Propagate (default) policy, however, the re-raise
escapes `__set__`, so a failure in a guarded step (here: sim-fingerprint)
aborts that step and every subsequent one (third conjunct). -/
theorem c2_guarding_amended :
    (∀ (csem : Csem) (B : PopBackend) (inst : Inst) (m : String),
        B.cloneRes = .ok () → B.aromatizeRes = .error m →
        WithIndigoObject.set csem B inst = (.error (.indigoErr m), [])) ∧
    (∀ (csem : Csem) (B : PopBackend) (inst : Inst),
        B.cloneRes = .ok () → B.aromatizeRes = .ok () →
        lookupPy inst "error_handler" = some (.vHandler .skipErrors) →
        ∃ out, (WithIndigoObject.set csem B inst).1 = .ok out ∧
          ∀ k, lookupPy out k = overrideLookup (popWrites B) inst k) ∧
    (∀ (csem : Csem) (B : PopBackend) (inst : Inst) (m : String),
        B.cloneRes = .ok () → B.aromatizeRes = .ok () →
        lookupPy inst "error_handler" = none → B.simFpRes = .error m →
        (WithIndigoObject.set csem B inst).1 = .error (.indigoErr m)) := by
  refine ⟨?_, ?_, ?_⟩
  · intro csem B inst m hc ha
    exact set_aromatize_fail csem B inst m hc ha
  · intro csem B inst hc ha hh
    rw [set_ok_ok csem B inst hc ha]
    exact afterAromatize_skipChar csem B inst (skip_handler_swallows csem inst hh)
  · intro csem B inst m hc ha hh hsim
    rw [set_ok_ok csem B inst hc ha]
    unfold afterAromatize
    apply seqStep_fst_error
    rw [hsim]
    exact fingerprintStep_error_propagate csem m "sim" inst hh (by decide) (by decide)

theorem c2_guarding_amended_witness :
    ∃ out, (WithIndigoObject.set (fun _ _ => none)
        ⟨.ok (), .ok (), .error "boom", .ok "", .ok [], .ok "nm",
          .ok "#02: <molecule>", .ok [], .ok 0, .ok false⟩
        [("error_handler", .vHandler .skipErrors)]).1 = .ok out ∧
      ∀ k, lookupPy out k =
        overrideLookup (popWrites
          ⟨.ok (), .ok (), .error "boom", .ok "", .ok [], .ok "nm",
            .ok "#02: <molecule>", .ok [], .ok 0, .ok false⟩)
          [("error_handler", .vHandler .skipErrors)] k :=
  c2_guarding_amended.2.1 (fun _ _ => none) _ _ rfl rfl rfl

/-- Claim C3, counterexample: a structure on which every backend call
raises (the clone included), populated under the Skip policy, raises
nothing — but the resulting record has no `sim_fingerprint` attribute at
all (the class default `None`), not the claimed empty list: the clone
failure makes `__set__` return before any field is initialised. -/
theorem c3_counterexample :
    (WithIndigoObject.set (fun _ _ => none)
        ⟨.error "boom", .error "boom", .error "boom", .error "boom",
          .error "boom", .error "boom", .error "boom", .error "boom",
          .error "boom", .error "boom"⟩
        [("error_handler", .vHandler .skipErrors)]) =
      (.ok [("error_handler", .vHandler .skipErrors)],
        [("clone", .indigoErr "boom")]) ∧
    lookupPy [("error_handler", PyVal.vHandler .skipErrors)] "sim_fingerprint" =
      none := ⟨rfl, rfl⟩

/-- Claim C3 (amended): under the Skip error policy, populating a record
from a structure whose clone and aromatization succeed but on which every
subsequent backend call raises does not raise, and the resulting record
has `sim_fingerprint = []`, `sim_fingerprint_len = 0`, `cmf = ""` and
`name = ""`.  (When the clone itself raises, Skip population returns
silently with every descriptor field left unset; when aromatization
raises, the exception propagates despite Skip.) -/
theorem c3_skip_defaults_amended (csem : Csem) (B : PopBackend) (inst : Inst)
    (m1 m2 m3 m4 m5 m6 : String)
    (hc : B.cloneRes = .ok ()) (ha : B.aromatizeRes = .ok ())
    (hsim : B.simFpRes = .error m1) (hsub : B.subFpRes = .error m2)
    (hser : B.serializeRes = .error m3) (hname : B.nameRes = .error m4)
    (hty : B.internalTypeRes = .error m5) (hval : B.badValenceRes = .error m6)
    (hh : lookupPy inst "error_handler" = some (.vHandler .skipErrors)) :
    ∃ out, (WithIndigoObject.set csem B inst).1 = .ok out ∧
      lookupPy out "sim_fingerprint" = some (.vIntList []) ∧
      lookupPy out "sim_fingerprint_len" = some (.vInt 0) ∧
      lookupPy out "sub_fingerprint" = some (.vIntList []) ∧
      lookupPy out "sub_fingerprint_len" = some (.vInt 0) ∧
      lookupPy out "cmf" = some (.vStr "") ∧
      lookupPy out "name" = some (.vStr "") := by
  rw [set_ok_ok csem B inst hc ha]
  obtain ⟨out, hout, hlook⟩ :=
    afterAromatize_skipChar csem B inst (skip_handler_swallows csem inst hh)
  refine ⟨out, hout, ?_, ?_, ?_, ?_, ?_, ?_⟩ <;> rw [hlook] <;>
    simp [overrideLookup, popWrites, fpWrites, fpFields, cmfWrites, nameWrites,
      hashWrites, valWrites, lookupPy, lookupPy_append, hsim, hsub, hser,
      hname, hty, hval]

theorem c3_skip_defaults_amended_witness :
    ∃ out, (WithIndigoObject.set (fun _ _ => none)
        ⟨.ok (), .ok (), .error "e1", .error "e2", .error "e3", .error "e4",
          .error "e5", .ok [], .ok 0, .error "e6"⟩
        [("error_handler", .vHandler .skipErrors)]).1 = .ok out ∧
      lookupPy out "sim_fingerprint" = some (.vIntList []) ∧
      lookupPy out "sim_fingerprint_len" = some (.vInt 0) ∧
      lookupPy out "sub_fingerprint" = some (.vIntList []) ∧
      lookupPy out "sub_fingerprint_len" = some (.vInt 0) ∧
      lookupPy out "cmf" = some (.vStr "") ∧
      lookupPy out "name" = some (.vStr "") :=
  c3_skip_defaults_amended (fun _ _ => none) _ _ "e1" "e2" "e3" "e4" "e5" "e6"
    rfl rfl rfl rfl rfl rfl rfl rfl rfl

/-- Claim C5: when population completes, a structure whose internal type
tag is molecule-like gets as its `hash` field the deduplicated,
ascending-sorted list of the per-component hashes — a value invariant
under any permutation of the component hash list, i.e. under reordering
of the structure's disconnected components — while a reaction-like tag
gets the singleton list holding the whole-object hash. -/
theorem c5_structural_hash (csem : Csem) (B : PopBackend) (inst out : Inst)
    (t : String) (hc : B.cloneRes = .ok ())
    (hty : B.internalTypeRes = .ok t)
    (hok : (WithIndigoObject.set csem B inst).1 = .ok out) :
    (∀ hs, t ∈ MOL_TYPES → B.componentHashesRes = .ok hs →
      lookupPy out "hash" = some (.vIntList (pySortedSet hs)) ∧
      ∀ hs', hs.Perm hs' → pySortedSet hs' = pySortedSet hs) ∧
    (∀ hsh, t ∉ MOL_TYPES → t ∈ REAC_TYPES → B.wholeHashRes = .ok hsh →
      lookupPy out "hash" = some (.vIntList [hsh])) := by
  rcases haro : B.aromatizeRes with m | u
  · rw [set_aromatize_fail csem B inst m hc haro] at hok
    cases hok
  · rw [set_ok_ok csem B inst hc (by rw [haro])] at hok
    obtain ⟨m1, m2, m3, m4, m5, h1, h2, h3, h4, h5, h6⟩ :=
      afterAromatize_ok_chain csem B inst out hok
    constructor
    · intro hs hm hcomp
      rw [hty, hcomp] at h5
      constructor
      · have hpres := valenceStep_writesOnly csem B.badValenceRes m5 out h6
          "hash" (by decide)
        rw [hpres]
        exact hashStep_mol_val csem t hs _ m4 m5 hm h5
      · intro hs' hp
        exact (pySortedSet_perm hs hs' hp).symm
    · intro hsh hm hr hwhole
      rw [hty, hwhole] at h5
      have hpres := valenceStep_writesOnly csem B.badValenceRes m5 out h6
        "hash" (by decide)
      rw [hpres]
      exact hashStep_reac_val csem t _ hsh m4 m5 hm hr h5

theorem c5_structural_hash_witness :
    lookupPy [("sim_fingerprint", PyVal.vIntList []),
      ("sim_fingerprint_len", PyVal.vInt 0),
      ("sub_fingerprint", PyVal.vIntList []),
      ("sub_fingerprint_len", PyVal.vInt 0), ("cmf", PyVal.vStr ""),
      ("name", PyVal.vStr "nm"),
      ("hash", PyVal.vIntList (pySortedSet [3, 1, 3])),
      ("has_error", PyVal.vInt 0)] "hash" =
        some (.vIntList (pySortedSet [3, 1, 3])) ∧
    pySortedSet [1, 3, 3] = pySortedSet [3, 1, 3] := by
  have h := (c5_structural_hash (fun _ _ => none)
    ⟨.ok (), .ok (), .ok "", .ok "", .ok [], .ok "nm",
      .ok "#02: <molecule>", .ok [3, 1, 3], .ok 0, .ok false⟩ []
    _ "#02: <molecule>" rfl rfl rfl).1 [3, 1, 3] (by decide) rfl
  exact ⟨h.1, h.2 [1, 3, 3] (by decide)⟩

/-- Claim C7: when population completes and the valence check ran and
succeeded, `has_error` is `1` exactly when the backend reports bad
valence and `0` otherwise; when the valence check never ran (population
returned early on a swallowed clone failure) or itself failed (report
swallowed), the field is left unset. -/
theorem c7_has_error_flag (csem : Csem) (B : PopBackend) (inst out : Inst) :
    (∀ b, B.cloneRes = .ok () → B.badValenceRes = .ok b →
      (WithIndigoObject.set csem B inst).1 = .ok out →
      lookupPy out "has_error" = some (.vInt (if b then 1 else 0))) ∧
    (∀ m, B.cloneRes = .error m →
      (WithIndigoObject.set csem B inst).1 = .ok out →
      lookupPy inst "has_error" = none → lookupPy out "has_error" = none) ∧
    (∀ m, B.cloneRes = .ok () → B.badValenceRes = .error m →
      (WithIndigoObject.set csem B inst).1 = .ok out →
      lookupPy inst "has_error" = none → lookupPy out "has_error" = none) := by
  refine ⟨?_, ?_, ?_⟩
  · intro b hc hval hok
    rcases haro : B.aromatizeRes with m | u
    · rw [set_aromatize_fail csem B inst m hc haro] at hok
      cases hok
    · rw [set_ok_ok csem B inst hc (by rw [haro])] at hok
      obtain ⟨m1, m2, m3, m4, m5, h1, h2, h3, h4, h5, h6⟩ :=
        afterAromatize_ok_chain csem B inst out hok
      rw [hval] at h6
      exact valenceStep_ok_val csem b m5 out h6
  · intro m hc hok hnone
    rw [set_clone_fail csem B inst m hc] at hok
    have hout := reportStep_fst_ok _ _ _ _ _ hok
    rw [hout, hnone]
  · intro m hc hval hok hnone
    rcases haro : B.aromatizeRes with m' | u
    · rw [set_aromatize_fail csem B inst m' hc haro] at hok
      cases hok
    · rw [set_ok_ok csem B inst hc (by rw [haro])] at hok
      obtain ⟨m1, m2, m3, m4, m5, h1, h2, h3, h4, h5, h6⟩ :=
        afterAromatize_ok_chain csem B inst out hok
      rw [hval] at h6
      have hout := valenceStep_error_ok csem m m5 out h6
      have p5 := hashStep_writesOnly csem B.internalTypeRes
        B.componentHashesRes B.wholeHashRes m4 m5 h5 "has_error" (by decide)
      have p4 := nameStep_writesOnly csem B.nameRes m3 m4 h4 "has_error"
        (by decide)
      have p3 := cmfStep_writesOnly csem B.serializeRes m2 m3 h3 "has_error"
        (by decide)
      have p2 := fingerprintStep_writesOnly csem B.subFpRes "sub" m1 m2 h2
        "has_error" (by decide)
      have p1 := fingerprintStep_writesOnly csem B.simFpRes "sim" inst m1 h1
        "has_error" (by decide)
      rw [hout, p5, p4, p3, p2, p1, hnone]

theorem c7_has_error_flag_witness :
    lookupPy [("sim_fingerprint", PyVal.vIntList []),
      ("sim_fingerprint_len", PyVal.vInt 0),
      ("sub_fingerprint", PyVal.vIntList []),
      ("sub_fingerprint_len", PyVal.vInt 0), ("cmf", PyVal.vStr ""),
      ("name", PyVal.vStr "nm"),
      ("hash", PyVal.vIntList (pySortedSet [3, 1, 3])),
      ("has_error", PyVal.vInt 1)] "has_error" =
        some (.vInt (if true then 1 else 0)) :=
  (c7_has_error_flag (fun _ _ => none)
    ⟨.ok (), .ok (), .ok "", .ok "", .ok [], .ok "nm",
      .ok "#02: <molecule>", .ok [3, 1, 3], .ok 0, .ok true⟩ [] _).1 true
    rfl rfl rfl

/-- Claim C8: a structure whose internal type tag is in neither
`MOL_TYPES` nor `REAC_TYPES` leaves the `hash` field unset when
population completes, and the hash step reports nothing to the error
policy (no `check_error` report of the population carries the hash step's
tag): the unknown-kind case is silently skipped, not treated as a
failure. -/
theorem c8_unknown_type_skipped (csem : Csem) (B : PopBackend) (inst : Inst)
    (t : String) (hty : B.internalTypeRes = .ok t) (hm : t ∉ MOL_TYPES)
    (hr : t ∉ REAC_TYPES) (hnone : lookupPy inst "hash" = none) :
    (∀ out, (WithIndigoObject.set csem B inst).1 = .ok out →
      lookupPy out "hash" = none) ∧
    (WithIndigoObject.set csem B inst).2.filter
      (fun ev => ev.1 == "hash") = [] := by
  constructor
  · intro out hok
    rcases hclone : B.cloneRes with m | u
    · rw [set_clone_fail csem B inst m hclone] at hok
      have hout := reportStep_fst_ok _ _ _ _ _ hok
      rw [hout, hnone]
    · rcases haro : B.aromatizeRes with m | u2
      · rw [set_aromatize_fail csem B inst m (by rw [hclone]) haro] at hok
        cases hok
      · rw [set_ok_ok csem B inst (by rw [hclone]) (by rw [haro])] at hok
        obtain ⟨m1, m2, m3, m4, m5, h1, h2, h3, h4, h5, h6⟩ :=
          afterAromatize_ok_chain csem B inst out hok
        rw [hty, hashStep_unknown_events csem t _ _ hm hr m4] at h5
        have h45 : m4 = m5 := by
          injection h5 with h5'
        have p6 := valenceStep_writesOnly csem B.badValenceRes m5 out h6
          "hash" (by decide)
        have p4 := nameStep_writesOnly csem B.nameRes m3 m4 h4 "hash"
          (by decide)
        have p3 := cmfStep_writesOnly csem B.serializeRes m2 m3 h3 "hash"
          (by decide)
        have p2 := fingerprintStep_writesOnly csem B.subFpRes "sub" m1 m2 h2
          "hash" (by decide)
        have p1 := fingerprintStep_writesOnly csem B.simFpRes "sim" inst m1 h1
          "hash" (by decide)
        rw [p6, ← h45, p4, p3, p2, p1, hnone]
  · rcases hclone : B.cloneRes with m | u
    · rw [set_clone_fail csem B inst m hclone, reportStep_snd]
      simp
    · rcases haro : B.aromatizeRes with m | u2
      · rw [set_aromatize_fail csem B inst m (by rw [hclone]) haro]
        rfl
      · rw [set_ok_ok csem B inst (by rw [hclone]) (by rw [haro])]
        have hhashET : EventTags (hashStep csem B.internalTypeRes
            B.componentHashesRes B.wholeHashRes) [] := by
          intro inst' ev hmem
          rw [hty, hashStep_unknown_events csem t _ _ hm hr inst'] at hmem
          cases hmem
        have htags : EventTags (afterAromatize csem B)
            ["fingerprint-sim", "fingerprint-sub", "cmf", "name", "valence"] := by
          have h := eventTags_seq (fingerprintStep_eventTags csem B.simFpRes "sim")
            (eventTags_seq (fingerprintStep_eventTags csem B.subFpRes "sub")
              (eventTags_seq (cmfStep_eventTags csem B.serializeRes)
                (eventTags_seq (nameStep_eventTags csem B.nameRes)
                  (eventTags_seq hhashET
                    (valenceStep_eventTags csem B.badValenceRes)))))
          exact eventTags_mono h (by decide)
        rw [List.filter_eq_nil_iff]
        intro ev hmem
        have hev := htags inst ev hmem
        simp only [List.mem_cons, List.not_mem_nil, or_false] at hev
        rcases hev with h | h | h | h | h <;> rw [h] <;> decide

theorem c8_unknown_type_skipped_witness :
    (∀ out, (WithIndigoObject.set (fun _ _ => none)
        ⟨.ok (), .ok (), .ok "", .ok "", .ok [], .ok "nm",
          .ok "#09: <rgroup>", .ok [], .ok 0, .ok false⟩ []).1 = .ok out →
      lookupPy out "hash" = none) ∧
    (WithIndigoObject.set (fun _ _ => none)
        ⟨.ok (), .ok (), .ok "", .ok "", .ok [], .ok "nm",
          .ok "#09: <rgroup>", .ok [], .ok 0, .ok false⟩ []).2.filter
      (fun ev => ev.1 == "hash") = [] :=
  c8_unknown_type_skipped (fun _ _ => none) _ [] "#09: <rgroup>" rfl
    (by decide) (by decide) rfl

/-- Claim C1, failing behaviour of the code: `removeAtoms` is invoked once
per iterated atom, inside the iteration (the `atoms_to_remove` accumulator
is re-initialised every iteration and consumed every iteration), not once
after the full scan.  First conjunct: on every molecule the trace of
`removeAtoms` calls has one entry per atom.  Second conjunct: on the
two-atom molecule [C, Q] the call trace is `[[], [1]]` — two interleaved
calls, where the claim demands a single call after the scan — while the
returned molecule keeps only the C atom. -/
theorem c1_removal_interleaved :
    (∀ mol : List QAtom,
      (sanitize_indigo_query_molecule mol).2.length = mol.length) ∧
    sanitize_indigo_query_molecule
        [⟨false, false, "C"⟩, ⟨false, false, "Q"⟩] =
      ([⟨false, false, "C"⟩], [[], [1]]) :=
  ⟨sanitize_molecule_trace_length, rfl⟩

theorem sanitize_reaction_error_iff {α : Type} (load : QReaction → α)
    (rxn : QReaction) :
    sanitize_indigo_query_reaction load rxn =
        .error (.valueErr sanitizeReactionErrMsg) ↔
      ((∀ m ∈ rxn.reactants, ∀ a ∈ m, atomFlagged a) ∧
       (∀ m ∈ rxn.products, ∀ a ∈ m, atomFlagged a)) := by
  simp only [sanitize_indigo_query_reaction]
  by_cases h : (addCleaned rxn.products).length = 0 ∧
      (addCleaned rxn.reactants).length = 0
  · rw [if_pos h]
    constructor
    · intro _
      exact ⟨(addCleaned_eq_nil _).1 (List.length_eq_zero.1 h.2),
        (addCleaned_eq_nil _).1 (List.length_eq_zero.1 h.1)⟩
    · intro _
      rfl
  · rw [if_neg h]
    constructor
    · intro hc
      exact Except.noConfusion hc
    · rintro ⟨hre, hpr⟩
      exact absurd ⟨List.length_eq_zero.2 ((addCleaned_eq_nil _).2 hpr),
        List.length_eq_zero.2 ((addCleaned_eq_nil _).2 hre)⟩ h

/-- Claim C4: `sanitize_indigo_query_reaction` raises the `ValueError` of
source line 52 exactly when, after cloning and cleaning every reactant
and product and discarding clones left with zero atoms, the new reaction
has zero reactants and zero products — equivalently, when every atom of
every reactant and product is flagged for removal (first conjunct); and
in `IndigoRecordReactionTemplate.__init__` this error is raised before
`IndigoRecord.__init__` installs any error policy, so it propagates
unconditionally whatever `skip_errors` or `error_handler` keywords the
caller passed (second conjunct). -/
theorem c4_sanitize_reaction_valueerror :
    (∀ (α : Type) (load : QReaction → α) (rxn : QReaction),
      sanitize_indigo_query_reaction load rxn =
          .error (.valueErr sanitizeReactionErrMsg) ↔
        ((∀ m ∈ rxn.reactants, ∀ a ∈ m, atomFlagged a) ∧
         (∀ m ∈ rxn.products, ∀ a ∈ m, atomFlagged a))) ∧
    (∀ (csem : Csem) (uuidHex : String) (load : QReaction → IndigoObjModel)
        (rxnfileOf : QReaction → String) (kwargs : List (String × PyVal))
        (o : IndigoObjModel) (rxn : QReaction),
      lookupPy kwargs "indigo_object" = some (.vObj o) →
      o.qrxn = some rxn →
      (∀ m ∈ rxn.reactants, ∀ a ∈ m, atomFlagged a) →
      (∀ m ∈ rxn.products, ∀ a ∈ m, atomFlagged a) →
      IndigoRecordReactionTemplate.init csem uuidHex load rxnfileOf kwargs =
        (.error (.valueErr sanitizeReactionErrMsg), [])) := by
  constructor
  · intro α load rxn
    exact sanitize_reaction_error_iff load rxn
  · intro csem uuidHex load rxnfileOf kwargs o rxn hlook hq hre hpr
    simp only [IndigoRecordReactionTemplate.init, hlook, hq,
      (sanitize_reaction_error_iff load rxn).2 ⟨hre, hpr⟩]

theorem c4_sanitize_reaction_valueerror_witness :
    IndigoRecordReactionTemplate.init (fun _ _ => none) "u"
        (fun r => ⟨⟨.ok (), .ok (), .ok "", .ok "", .ok [], .ok "",
          .ok "#04: <reaction>", .ok [], .ok 0, .ok false⟩, some r⟩)
        (fun _ => "RXN")
        [("indigo_object", .vObj ⟨⟨.ok (), .ok (), .ok "", .ok "", .ok [],
            .ok "", .ok "#04: <reaction>", .ok [], .ok 0, .ok false⟩,
          some ⟨[[⟨false, false, "Q"⟩]], [[⟨true, false, "C"⟩]]⟩⟩),
          ("skip_errors", .vBool true),
          ("error_handler", .vHandler (.custom 7))] =
      (.error (.valueErr sanitizeReactionErrMsg), []) :=
  c4_sanitize_reaction_valueerror.2 (fun _ _ => none) "u" _ _ _ _
    ⟨[[⟨false, false, "Q"⟩]], [[⟨true, false, "C"⟩]]⟩ rfl rfl (by decide)
    (by decide)

/-- Claim C6: `as_indigo_object` raises the `ValueError` of source line
211 exactly when the record's `cmf` field is empty or was never populated
(the class default `None`), and on a non-empty string of space-separated
integers it returns the session's deserialization of that integer
sequence; the result depends only on the `cmf` field — in particular it
is the same whatever error policy the record holds. -/
theorem c6_as_indigo_object (α : Type) (deserialize : List Int → α)
    (inst : Inst) :
    ((pyDictGet inst "cmf" .vNone = .vNone ∨
        pyDictGet inst "cmf" .vNone = .vStr "") →
      IndigoRecord.as_indigo_object deserialize inst =
        .error (.valueErr "Unexpected cmf value")) ∧
    (∀ s ints, pyDictGet inst "cmf" .vNone = .vStr s → s ≠ "" →
      pyParseIntList (pySplitSpace s) = some ints →
      IndigoRecord.as_indigo_object deserialize inst =
        .ok (deserialize ints)) ∧
    (∀ inst', pyDictGet inst' "cmf" .vNone = pyDictGet inst "cmf" .vNone →
      IndigoRecord.as_indigo_object deserialize inst' =
        IndigoRecord.as_indigo_object deserialize inst) := by
  refine ⟨?_, ?_, ?_⟩
  · intro h
    rcases h with h | h <;> simp [IndigoRecord.as_indigo_object, h, pyTruthy]
  · intro s ints hs hne hp
    simp [IndigoRecord.as_indigo_object, hs, pyTruthy, hne, hp]
  · intro inst' he
    simp only [IndigoRecord.as_indigo_object, he]

theorem c6_as_indigo_object_witness :
    IndigoRecord.as_indigo_object (fun l => l) [("cmf", PyVal.vStr "7 9")] =
        .ok [7, 9] ∧
    IndigoRecord.as_indigo_object (fun l => l)
        [("error_handler", PyVal.vHandler .skipErrors)] =
      .error (.valueErr "Unexpected cmf value") :=
  ⟨(c6_as_indigo_object (List Int) (fun l => l) _).2.1 "7 9" [7, 9] rfl
      (by decide) (by decide),
    (c6_as_indigo_object (List Int) (fun l => l) _).1 (Or.inl rfl)⟩

theorem set_writesOnly (csem : Csem) (B : PopBackend) :
    WritesOnly (WithIndigoObject.set csem B) popFieldKeys := by
  intro inst out hok k hk
  rcases hclone : B.cloneRes with m | u
  · rw [set_clone_fail csem B inst m hclone] at hok
    rw [reportStep_fst_ok _ _ _ _ _ hok]
  · rcases haro : B.aromatizeRes with m | u2
    · rw [set_aromatize_fail csem B inst m (by rw [hclone]) haro] at hok
      cases hok
    · rw [set_ok_ok csem B inst (by rw [hclone]) (by rw [haro])] at hok
      exact afterAromatize_writesOnly csem B inst out hok k hk

theorem pySetattr_preserves_other (csem : Csem) (inst : Inst) (key : String)
    (v : PyVal) (out : Inst) (K' : String) (hne : ¬key = K')
    (hnel : ¬key = "elastic_response") (hK1 : K' ∉ popFieldKeys)
    (hok : (pySetattr csem inst key v).1 = .ok out) :
    lookupPy out K' = lookupPy inst K' := by
  rw [pySetattr.eq_def] at hok
  by_cases hio : key = "indigo_object"
  · rw [if_pos hio] at hok
    cases v with
    | vObj o => exact set_writesOnly csem o.pop inst out hok K' hK1
    | vNone => simp at hok
    | vBool b => simp at hok
    | vInt m => simp at hok
    | vStr s => simp at hok
    | vIntList l => simp at hok
    | vHandler hh => simp at hok
    | vDict entries => simp at hok
  · rw [if_neg hio] at hok
    rw [if_neg hnel] at hok
    have h' : Except.ok (rawSet inst key v) = .ok out := hok
    injection h' with h''
    rw [← h'', lookup_rawSet_ne _ _ _ _ hne]

theorem elasticFromSource_cons (csem : Csem) (inst : Inst) (k : String)
    (v : PyVal) (rest : List (String × PyVal)) :
    elasticFromSource csem inst ((k, v) :: rest) =
      if k = "_source" then
        (match v with
         | PyVal.vDict src => elasticSrcLoop csem inst src
         | _ => (.error (.attrErr "object has no attribute items"), []))
      else elasticFromSource csem inst rest := by
  rw [elasticFromSource.eq_def]

theorem setattr_descriptor_inv (csem : Csem) (K : String)
    (hK : K = "indigo_object" ∨ K = "elastic_response") :
    ∀ n : Nat,
      (∀ (v : PyVal) (inst : Inst) (key : String) (out : Inst),
        sizeOf v ≤ n → (pySetattr csem inst key v).1 = .ok out →
        lookupPy out K = lookupPy inst K) ∧
      (∀ (entries : List (String × PyVal)) (inst out : Inst),
        sizeOf entries ≤ n → (elasticFromSource csem inst entries).1 = .ok out →
        lookupPy out K = lookupPy inst K) ∧
      (∀ (entries : List (String × PyVal)) (inst out : Inst),
        sizeOf entries ≤ n → (elasticSrcLoop csem inst entries).1 = .ok out →
        lookupPy out K = lookupPy inst K) := by
  have hKsort : ¬"_sort" = K := by
    rcases hK with h | h <;> rw [h] <;> decide
  have hKpf : K ∉ popFieldKeys := by
    rcases hK with h | h <;> rw [h] <;> decide
  intro n
  induction n using Nat.strong_induction_on with
  | _ n ih =>
    refine ⟨?_, ?_, ?_⟩
    · intro v inst key out hsz hok
      rw [pySetattr.eq_def] at hok
      by_cases hio : key = "indigo_object"
      · rw [if_pos hio] at hok
        cases v with
        | vObj o => exact set_writesOnly csem o.pop inst out hok K hKpf
        | vNone => simp at hok
        | vBool b => simp at hok
        | vInt m => simp at hok
        | vStr s => simp at hok
        | vIntList l => simp at hok
        | vHandler hh => simp at hok
        | vDict entries => simp at hok
      · rw [if_neg hio] at hok
        by_cases hel : key = "elastic_response"
        · rw [if_pos hel] at hok
          cases v with
          | vDict entries =>
              have hok2 : (match elasticFromSource csem inst entries with
                  | (Except.ok i2, ev) =>
                      (Except.ok (rawSet i2 "_sort"
                        (pyDictGet entries "sort" PyVal.vNone)), ev)
                  | r => r).1 = Except.ok out := hok
              cases hefs : elasticFromSource csem inst entries with
              | mk r1 ev =>
                  rw [hefs] at hok2
                  cases r1 with
                  | ok i2 =>
                      have h' : Except.ok
                          (rawSet i2 "_sort" (pyDictGet entries "sort" .vNone)) =
                            .ok out := hok2
                      injection h' with h''
                      have hlt : sizeOf entries < n := by
                        have h1 : sizeOf entries < sizeOf (PyVal.vDict entries) := by
                          simp only [PyVal.vDict.sizeOf_spec]
                          omega
                        omega
                      have hpre := (ih (sizeOf entries) hlt).2.1 entries inst i2
                        le_rfl (by rw [hefs])
                      rw [← h'', lookup_rawSet_ne _ _ _ _ hKsort, hpre]
                  | error e => simp at hok2
          | vNone => simp at hok
          | vBool b => simp at hok
          | vInt m => simp at hok
          | vStr s => simp at hok
          | vIntList l => simp at hok
          | vHandler hh => simp at hok
          | vObj o => simp at hok
        · rw [if_neg hel] at hok
          have h' : Except.ok (rawSet inst key v) = .ok out := hok
          injection h' with h''
          have hkeyne : ¬key = K := by
            rcases hK with h | h <;> rw [h]
            · exact hio
            · exact hel
          rw [← h'', lookup_rawSet_ne _ _ _ _ hkeyne]
    · intro entries inst out hsz hok
      cases entries with
      | nil =>
          rw [elasticFromSource.eq_def] at hok
          have hok2 : (Except.error (PyErr.keyErr "_source") : Except PyErr Inst) =
              Except.ok out := hok
          exact Except.noConfusion hok2
      | cons p rest =>
          obtain ⟨k, v⟩ := p
          rw [elasticFromSource_cons] at hok
          have hok2 := hok
          by_cases hks : k = "_source"
          · rw [if_pos hks] at hok2
            cases v with
            | vDict src =>
                have hlt : sizeOf src < n := by
                  have h1 : sizeOf src < sizeOf ((k, PyVal.vDict src) :: rest) := by
                    simp only [List.cons.sizeOf_spec, Prod.mk.sizeOf_spec,
                      PyVal.vDict.sizeOf_spec]
                    omega
                  omega
                exact (ih (sizeOf src) hlt).2.2 src inst out le_rfl hok2
            | vNone => simp at hok2
            | vBool b => simp at hok2
            | vInt m => simp at hok2
            | vStr s => simp at hok2
            | vIntList l => simp at hok2
            | vHandler hh => simp at hok2
            | vObj o => simp at hok2
          · rw [if_neg hks] at hok2
            have hlt : sizeOf rest < n := by
              have h1 : sizeOf rest < sizeOf ((k, v) :: rest) := by
                simp only [List.cons.sizeOf_spec, Prod.mk.sizeOf_spec]
                omega
              omega
            exact (ih (sizeOf rest) hlt).2.1 rest inst out le_rfl hok2
    · intro entries inst out hsz hok
      cases entries with
      | nil =>
          rw [elasticSrcLoop.eq_def] at hok
          have h' : Except.ok inst = .ok out := hok
          injection h' with h''
          rw [← h'']
      | cons p rest =>
          obtain ⟨k, v⟩ := p
          rw [elasticSrcLoop.eq_def] at hok
          have hok2 : (match pySetattr csem inst k v with
              | (Except.ok i2, ev) =>
                  ((elasticSrcLoop csem i2 rest).1,
                    ev ++ (elasticSrcLoop csem i2 rest).2)
              | r => r).1 = Except.ok out := hok
          cases hps : pySetattr csem inst k v with
          | mk r1 ev =>
              rw [hps] at hok2
              cases r1 with
              | ok i2 =>
                  have hloop : (elasticSrcLoop csem i2 rest).1 = .ok out := hok2
                  have hltv : sizeOf v < n := by
                    have h1 : sizeOf v < sizeOf ((k, v) :: rest) := by
                      simp only [List.cons.sizeOf_spec, Prod.mk.sizeOf_spec]
                      omega
                    omega
                  have hltr : sizeOf rest < n := by
                    have h1 : sizeOf rest < sizeOf ((k, v) :: rest) := by
                      simp only [List.cons.sizeOf_spec, Prod.mk.sizeOf_spec]
                      omega
                    omega
                  have e1 := (ih (sizeOf v) hltv).1 v inst k i2 le_rfl
                    (by rw [hps])
                  have e2 := (ih (sizeOf rest) hltr).2.2 rest i2 out le_rfl hloop
                  rw [e2, e1]
              | error e => simp at hok2

theorem pySetattr_plain (csem : Csem) (inst : Inst) (k : String) (v : PyVal)
    (h1 : ¬k = "indigo_object") (h2 : ¬k = "elastic_response") :
    pySetattr csem inst k v = (.ok (rawSet inst k v), []) := by
  rw [pySetattr.eq_def, if_neg h1, if_neg h2]

theorem initLoop_no_descriptor (csem : Csem) (K : String)
    (hK : K = "indigo_object" ∨ K = "elastic_response") :
    ∀ (kwargs : List (String × PyVal)) (inst out : Inst),
      (initLoop csem inst kwargs).1 = .ok out →
      lookupPy out K = lookupPy inst K := by
  intro kwargs
  induction kwargs with
  | nil =>
      intro inst out hok
      have h' : Except.ok inst = .ok out := hok
      injection h' with h''
      rw [← h'']
  | cons p rest ih =>
      intro inst out hok
      obtain ⟨k, v⟩ := p
      have hok2 : (match pySetattr csem inst k v with
          | (Except.ok i2, ev) =>
              ((initLoop csem i2 rest).1, ev ++ (initLoop csem i2 rest).2)
          | r => r).1 = Except.ok out := hok
      cases hps : pySetattr csem inst k v with
      | mk r1 ev =>
          rw [hps] at hok2
          cases r1 with
          | ok i2 =>
              have hloop : (initLoop csem i2 rest).1 = .ok out := hok2
              have e1 := (setattr_descriptor_inv csem K hK (sizeOf v)).1 v inst
                k i2 le_rfl (by rw [hps])
              rw [ih i2 out hloop, e1]
          | error e => simp at hok2

theorem initLoop_absent (csem : Csem) (K' : String) (hK1 : K' ∉ popFieldKeys) :
    ∀ (kwargs : List (String × PyVal)) (inst out : Inst),
      "elastic_response" ∉ kwargs.map Prod.fst →
      K' ∉ kwargs.map Prod.fst →
      (initLoop csem inst kwargs).1 = .ok out →
      lookupPy out K' = lookupPy inst K' := by
  intro kwargs
  induction kwargs with
  | nil =>
      intro inst out hel hmem hok
      have h' : Except.ok inst = .ok out := hok
      injection h' with h''
      rw [← h'']
  | cons p rest ih =>
      intro inst out hel hmem hok
      obtain ⟨k, v⟩ := p
      simp only [List.map_cons, List.mem_cons] at hel hmem
      push_neg at hel hmem
      obtain ⟨hel1, hel2⟩ := hel
      obtain ⟨hmem1, hmem2⟩ := hmem
      have hok2 : (match pySetattr csem inst k v with
          | (Except.ok i2, ev) =>
              ((initLoop csem i2 rest).1, ev ++ (initLoop csem i2 rest).2)
          | r => r).1 = Except.ok out := hok
      cases hps : pySetattr csem inst k v with
      | mk r1 ev =>
          rw [hps] at hok2
          cases r1 with
          | ok i2 =>
              have hloop : (initLoop csem i2 rest).1 = .ok out := hok2
              have hpres := pySetattr_preserves_other csem inst k v i2 K'
                (fun hh => hmem1 hh.symm) (fun hh => hel1 hh.symm) hK1
                (by rw [hps])
              rw [ih i2 out hel2 hmem2 hloop, hpres]
          | error e => simp at hok2

theorem initLoop_present (csem : Csem) (K' : String) (w : PyVal)
    (hK1 : K' ∉ popFieldKeys) (hKio : ¬K' = "indigo_object")
    (hKel : ¬K' = "elastic_response") :
    ∀ (kwargs : List (String × PyVal)) (inst out : Inst),
      (kwargs.map Prod.fst).Nodup →
      "elastic_response" ∉ kwargs.map Prod.fst →
      lookupPy kwargs K' = some w →
      (initLoop csem inst kwargs).1 = .ok out →
      lookupPy out K' = some w := by
  intro kwargs
  induction kwargs with
  | nil =>
      intro inst out hnodup hel hlook hok
      cases hlook
  | cons p rest ih =>
      intro inst out hnodup hel hlook hok
      obtain ⟨k, v⟩ := p
      simp only [List.map_cons, List.mem_cons] at hel
      push_neg at hel
      obtain ⟨hel1, hel2⟩ := hel
      rw [List.map_cons, List.nodup_cons] at hnodup
      obtain ⟨hnd1, hnd2⟩ := hnodup
      have hok2 : (match pySetattr csem inst k v with
          | (Except.ok i2, ev) =>
              ((initLoop csem i2 rest).1, ev ++ (initLoop csem i2 rest).2)
          | r => r).1 = Except.ok out := hok
      cases hps : pySetattr csem inst k v with
      | mk r1 ev =>
          rw [hps] at hok2
          cases r1 with
          | error e => simp at hok2
          | ok i2 =>
              have hloop : (initLoop csem i2 rest).1 = .ok out := hok2
              by_cases hk : k = K'
              · subst hk
                have hw : v = w := by
                  have hlk : lookupPy ((k, v) :: rest) k = some v := by
                    simp [lookupPy]
                  rw [hlk] at hlook
                  exact Option.some.inj hlook
                subst hw
                have hi2 : i2 = rawSet inst k v := by
                  rw [pySetattr_plain csem inst k v hKio hKel] at hps
                  injection hps with hps1 hps2
                  injection hps1 with hps1'
                  exact hps1'.symm
                have habs := initLoop_absent csem k hK1 rest i2 out hel2
                  hnd1 hloop
                rw [habs, hi2, lookupPy_rawSet, if_pos rfl]
              · have hlook' : lookupPy rest K' = some w := by
                  have : lookupPy ((k, v) :: rest) K' = lookupPy rest K' := by
                    simp [lookupPy, hk]
                  rw [← this]
                  exact hlook
                exact ih i2 out hnd2 hel2 hlook' hloop

theorem lookupPy_filter_none (l : Inst) (p : String × PyVal → Bool)
    (K : String) (h : lookupPy l K = none) :
    lookupPy (l.filter p) K = none := by
  induction l with
  | nil => rfl
  | cons q rest ih =>
      obtain ⟨k0, v0⟩ := q
      by_cases hk : k0 = K
      · exfalso
        simp [lookupPy, hk] at h
      · have h' : lookupPy rest K = none := by
          simpa [lookupPy, hk] using h
        cases hp : p (k0, v0)
        · simp [List.filter_cons, hp, ih h']
        · simp [List.filter_cons, hp, lookupPy, hk, ih h']

theorem init_as_dict_no_descriptor (csem : Csem) (uuidHex : String)
    (kwargs : List (String × PyVal)) (out : Inst)
    (hok : (IndigoRecord.init csem uuidHex kwargs).1 = .ok out) :
    lookupPy (IndigoRecord.as_dict out) "indigo_object" = none ∧
    lookupPy (IndigoRecord.as_dict out) "elastic_response" = none := by
  unfold IndigoRecord.init at hok
  have hbase : ∀ K, ¬"error_handler" = K → ¬"record_id" = K →
      lookupPy (rawSet (if pyTruthy (pyDictGet kwargs "skip_errors" (.vBool false))
        then rawSet [] "error_handler" (.vHandler .skipErrors)
        else rawSet [] "error_handler" (pyDictGet kwargs "error_handler" .vNone))
          "record_id" (.vStr uuidHex)) K = none := by
    intro K h1 h2
    rw [lookup_rawSet_ne _ _ _ _ h2]
    by_cases hc : pyTruthy (pyDictGet kwargs "skip_errors" (.vBool false))
    · rw [if_pos hc, lookup_rawSet_ne _ _ _ _ h1]
      rfl
    · rw [if_neg hc, lookup_rawSet_ne _ _ _ _ h1]
      rfl
  constructor
  · have hp := initLoop_no_descriptor csem "indigo_object" (Or.inl rfl) kwargs
      _ out hok
    unfold IndigoRecord.as_dict
    apply lookupPy_filter_none
    rw [hp]
    exact hbase "indigo_object" (by decide) (by decide)
  · have hp := initLoop_no_descriptor csem "elastic_response" (Or.inr rfl) kwargs
      _ out hok
    unfold IndigoRecord.as_dict
    apply lookupPy_filter_none
    rw [hp]
    exact hbase "elastic_response" (by decide) (by decide)

/-- Claim C10: the `indigo_object` and `elastic_response` keyword values
are consumed by the corresponding data descriptors and are never stored
in the instance dictionary, so the `as_dict` mapping of any record —
whatever keywords it was built from, including nested search-backend
documents re-assigned through `setattr` — contains neither key; likewise
for reaction-template records. -/
theorem c10_descriptor_keys_never_stored :
    (∀ (csem : Csem) (uuidHex : String) (kwargs : List (String × PyVal))
        (out : Inst),
      (IndigoRecord.init csem uuidHex kwargs).1 = .ok out →
      lookupPy (IndigoRecord.as_dict out) "indigo_object" = none ∧
      lookupPy (IndigoRecord.as_dict out) "elastic_response" = none) ∧
    (∀ (csem : Csem) (uuidHex : String) (load : QReaction → IndigoObjModel)
        (rxnfileOf : QReaction → String) (kwargs : List (String × PyVal))
        (out : Inst),
      (IndigoRecordReactionTemplate.init csem uuidHex load rxnfileOf
        kwargs).1 = .ok out →
      lookupPy (IndigoRecord.as_dict out) "indigo_object" = none ∧
      lookupPy (IndigoRecord.as_dict out) "elastic_response" = none) := by
  constructor
  · exact init_as_dict_no_descriptor
  · intro csem uuidHex load rxnfileOf kwargs out hok
    have hok2 : ((match lookupPy kwargs "indigo_object" with
        | none => IndigoRecord.init csem uuidHex kwargs
        | some (.vObj o) =>
            (match o.qrxn with
             | some rxn =>
                 (match sanitize_indigo_query_reaction load rxn with
                  | .error e => ((.error e : Except PyErr Inst), ([] : List Event))
                  | .ok cleanedObj =>
                      IndigoRecord.init csem uuidHex
                        (rawSet (rawSet kwargs "indigo_object" (.vObj cleanedObj))
                          "original_qrxn" (.vStr (rxnfileOf rxn))))
             | none => ((.error (.typeErr "can not iterate reactants") :
                 Except PyErr Inst), ([] : List Event)))
        | some _ => ((.error (.attrErr "object has no attribute session") :
            Except PyErr Inst), ([] : List Event))) : StepOut).1 = .ok out := hok
    cases hl : lookupPy kwargs "indigo_object" with
    | none =>
        rw [hl] at hok2
        exact init_as_dict_no_descriptor csem uuidHex kwargs out hok2
    | some v =>
        rw [hl] at hok2
        cases v with
        | vObj o =>
            have hok3 : ((match o.qrxn with
                | some rxn =>
                    (match sanitize_indigo_query_reaction load rxn with
                     | .error e => ((.error e : Except PyErr Inst),
                         ([] : List Event))
                     | .ok cleanedObj =>
                         IndigoRecord.init csem uuidHex
                           (rawSet (rawSet kwargs "indigo_object"
                               (.vObj cleanedObj))
                             "original_qrxn" (.vStr (rxnfileOf rxn))))
                | none => ((.error (.typeErr "can not iterate reactants") :
                    Except PyErr Inst), ([] : List Event))) : StepOut).1 =
                  .ok out := hok2
            cases hq : o.qrxn with
            | some rxn =>
                rw [hq] at hok3
                have hok4 : ((match sanitize_indigo_query_reaction load rxn with
                    | .error e => ((.error e : Except PyErr Inst),
                        ([] : List Event))
                    | .ok cleanedObj =>
                        IndigoRecord.init csem uuidHex
                          (rawSet (rawSet kwargs "indigo_object"
                              (.vObj cleanedObj))
                            "original_qrxn" (.vStr (rxnfileOf rxn)))) :
                  StepOut).1 = .ok out := hok3
                cases hs : sanitize_indigo_query_reaction load rxn with
                | error e =>
                    rw [hs] at hok4
                    simp at hok4
                | ok cleanedObj =>
                    rw [hs] at hok4
                    exact init_as_dict_no_descriptor csem uuidHex _ out hok4
            | none =>
                rw [hq] at hok3
                simp at hok3
        | vNone => simp at hok2
        | vBool b => simp at hok2
        | vInt m => simp at hok2
        | vStr s => simp at hok2
        | vIntList l => simp at hok2
        | vHandler hh => simp at hok2
        | vDict entries => simp at hok2

theorem c10_descriptor_keys_never_stored_witness :
    lookupPy (IndigoRecord.as_dict [("error_handler", PyVal.vNone),
      ("record_id", PyVal.vStr "u"), ("name", PyVal.vStr "x")])
        "indigo_object" = none ∧
    lookupPy (IndigoRecord.as_dict [("error_handler", PyVal.vNone),
      ("record_id", PyVal.vStr "u"), ("name", PyVal.vStr "x")])
        "elastic_response" = none :=
  c10_descriptor_keys_never_stored.1 (fun _ _ => none) "u"
    [("name", PyVal.vStr "x")] _ rfl

/-- Claim C9: when the constructor receives both `skip_errors=True` and
an explicit `error_handler` keyword (with distinct keyword names and no
`elastic_response` keyword), the generic keyword-assignment loop
overwrites the `skip_errors` handler installed first, so the record ends
up holding the caller's handler — subsequent `check_error` calls are
routed to it — and a `skip_errors` attribute is also stored on the
instance. -/
theorem c9_explicit_handler_wins (csem : Csem) (uuidHex : String)
    (kwargs : List (String × PyVal)) (out : Inst) (c : Nat)
    (hnodup : (kwargs.map Prod.fst).Nodup)
    (hnel : "elastic_response" ∉ kwargs.map Prod.fst)
    (hskip : lookupPy kwargs "skip_errors" = some (.vBool true))
    (hhandler : lookupPy kwargs "error_handler" =
      some (.vHandler (.custom c)))
    (hok : (IndigoRecord.init csem uuidHex kwargs).1 = .ok out) :
    lookupPy out "error_handler" = some (.vHandler (.custom c)) ∧
    lookupPy out "skip_errors" = some (.vBool true) ∧
    ∀ e, check_error csem out e =
      (match csem c e with
       | none => .ok ()
       | some e' => .error e') := by
  unfold IndigoRecord.init at hok
  have h1 := initLoop_present csem "error_handler" (.vHandler (.custom c))
    (by decide) (by decide) (by decide) kwargs _ out hnodup hnel hhandler hok
  have h2 := initLoop_present csem "skip_errors" (.vBool true)
    (by decide) (by decide) (by decide) kwargs _ out hnodup hnel hskip hok
  refine ⟨h1, h2, ?_⟩
  intro e
  unfold check_error
  rw [h1]

theorem c9_explicit_handler_wins_witness :
    lookupPy [("error_handler", PyVal.vHandler (.custom 5)),
        ("record_id", PyVal.vStr "u"), ("skip_errors", PyVal.vBool true),
        ("name", PyVal.vStr "x")] "error_handler" =
      some (.vHandler (.custom 5)) ∧
    lookupPy [("error_handler", PyVal.vHandler (.custom 5)),
        ("record_id", PyVal.vStr "u"), ("skip_errors", PyVal.vBool true),
        ("name", PyVal.vStr "x")] "skip_errors" = some (.vBool true) ∧
    ∀ e, check_error (fun _ _ => none)
        [("error_handler", PyVal.vHandler (.custom 5)),
          ("record_id", PyVal.vStr "u"), ("skip_errors", PyVal.vBool true),
          ("name", PyVal.vStr "x")] e =
      (match (fun (_ : Nat) (_ : PyErr) => (none : Option PyErr)) 5 e with
       | none => .ok ()
       | some e' => .error e') :=
  c9_explicit_handler_wins (fun _ _ => none) "u"
    [("skip_errors", PyVal.vBool true),
      ("error_handler", PyVal.vHandler (.custom 5)),
      ("name", PyVal.vStr "x")] _ 5 (by decide) (by decide) rfl rfl rfl
